import Mathlib

/-!
Verification development for the asynchronous DNS resolver `eventdns.c`
(Tor's copy of Adam Langley's evdns).  The definitions below are a shallow
embedding of the C source: machine integers become `Nat`/`Int` with explicit
masks where overflow matters, the process-global resolver state becomes an
explicit `DnsState` record threaded through every operation, and socket I/O
is abstracted as a trace of transmitted request identities plus a trace of
user-callback invocations.
-/

set_option maxRecDepth 10000

/-! ## Constants from the public interface (eventdns.h)

The header is not part of this snapshot; the numeric values below are the
library's published constants.  Only their distinctness matters for any
branch modelled here. -/

def TYPE_A : Nat := 1
def TYPE_PTR : Nat := 12
def TYPE_AAAA : Nat := 28
def CLASS_INET : Nat := 1
def DNS_QUERY_NO_SEARCH : Nat := 1
def DNS_OPTION_SEARCH : Nat := 1
def DNS_OPTION_NAMESERVERS : Nat := 2
def DNS_OPTION_MISC : Nat := 4
def DNS_OPTIONS_ALL : Nat := 7
def DNS_ERR_NONE : Nat := 0
def DNS_ERR_FORMAT : Nat := 1
def DNS_ERR_SERVERFAILED : Nat := 2
def DNS_ERR_NOTEXIST : Nat := 3
def DNS_ERR_NOTIMPL : Nat := 4
def DNS_ERR_REFUSED : Nat := 5
def DNS_ERR_TRUNCATED : Nat := 65
def DNS_ERR_UNKNOWN : Nat := 66
def DNS_ERR_TIMEOUT : Nat := 67
def DNS_ERR_SHUTDOWN : Nat := 68

/-! ## Wire codec: `name_parse`

`name_parse(packet, length, idx, name_out, name_out_len)` reads
length-prefixed labels, following 14-bit compression pointers
(`((byte & 0x3f) << 8) | next`).  The C loop carries the cursor `j`, the
frozen post-name cursor `name_end` (−1 until the first pointer) and the
output cursor `cp`; here `acc` is the list of characters written so far and
`nameEnd : Option Nat` is the frozen cursor.  The C loop has no iteration
bound, so the embedding takes explicit fuel: a `none` result means the fuel
ran out, i.e. the C loop has not returned within that many iterations.
`some none` is the C return value −1, `some (some (name, idx'))` is success
with the updated `*idx`. -/

def name_parse_go (packet : List Nat) (outLen : Nat) :
    Nat → Nat → Option Nat → List Char → Option (Option (List Char × Nat))
  | 0, _, _, _ => none
  | fuel+1, j, nameEnd, acc =>
    if packet.length ≤ j then some none
    else
      let labelLen := packet.getD j 0
      let j1 := j + 1
      if labelLen = 0 then
        -- end of labels: `if (cp >= end) return -1; *cp = 0;` then *idx update
        if outLen ≤ acc.length then some none
        else some (some (acc, nameEnd.getD j1))
      else if labelLen &&& 0xc0 ≠ 0 then
        if packet.length ≤ j1 then some none
        else
          let ptrLow := packet.getD j1 0
          let j2 := j1 + 1
          -- `if (name_end < 0) name_end = j;`
          let nameEnd' := some (nameEnd.getD j2)
          let jT := ((labelLen &&& 0x3f) <<< 8) + ptrLow
          if packet.length ≤ jT then some none
          else name_parse_go packet outLen fuel jT nameEnd' acc
      else if 63 < labelLen then some none
        -- dead guard kept from the source: labelLen > 63 implies a 0xc0 bit
      else
        -- `if (cp != name_out) { if (cp + 1 >= end) return -1; *cp++ = '.'; }`
        if acc.isEmpty = false ∧ outLen ≤ acc.length + 1 then some none
        else
          let acc1 := if acc.isEmpty then acc else acc ++ ['.']
          -- `if (cp + label_len >= end) return -1;`
          if outLen ≤ acc1.length + labelLen then some none
          else
            -- the C memcpy does not bound-check the packet side; out-of-range
            -- bytes are modelled as 0
            let chars := (List.range labelLen).map
              (fun k => Char.ofNat (packet.getD (j1 + k) 0))
            name_parse_go packet outLen fuel (j1 + labelLen) nameEnd (acc1 ++ chars)

def name_parse (packet : List Nat) (idx : Nat) (outLen : Nat) (fuel : Nat) :
    Option (Option (List Char × Nat)) :=
  name_parse_go packet outLen fuel idx none []

/-! ## Data model

`Request` and `Nameserver` mirror `struct request` / `struct nameserver`.
The circular doubly-linked lists become Lean lists whose first element is
the C head pointer and whose order follows the `next` links.  C pointers to
requests/nameservers become the identities `reqId` / `nsid` (a fresh-pointer
allocator `nextId` lives in the state).  The search fields mirror
`search_index`, `search_origname`, `search_state` (the referenced
`struct search_state` value) and `search_flags`. -/

structure SearchCfg where
  ndots : Int
  domains : List String
deriving Repr, DecidableEq

structure Request where
  reqId : Nat
  transId : Nat
  txCount : Nat
  reissueCount : Nat
  transmitMe : Bool
  ns : Option Nat
  reqType : Nat
  name : String
  cbId : Nat
  searchIndex : Int
  searchOrigname : Option String
  searchCfgRef : Option SearchCfg
  searchFlags : Nat
deriving Repr, DecidableEq

structure Nameserver where
  nsid : Nat
  address : Nat
  state : Bool
  failedTimes : Nat
  timedout : Nat
  choaked : Bool
deriving Repr, DecidableEq

/-- The module-level globals of eventdns.c: the two request lists, the
nameserver ring, the counters, the tunables, plus the abstracted
environment (entropy source for `transaction_id_pick`, the hostname
visible to `gethostname`) and the two observation traces (requests
handed to `send`, user-callback invocations `(cbId, result)`). -/
structure DnsState where
  reqHead : List Request
  reqWaitingHead : List Request
  servers : List Nameserver
  good : Int
  inflight : Int
  waiting : Int
  cap : Int
  maxReissues : Int
  maxRetransmits : Int
  maxNsTimeout : Int
  timeoutSecs : Int
  searchCfg : Option SearchCfg
  hostname : Option String
  entropy : List Nat
  nextId : Nat
  transmits : List Nat
  callbacks : List (Nat × Nat)
deriving Repr, DecidableEq

def findReqL (l : List Request) (i : Nat) : Option Request :=
  l.find? (fun r => r.reqId = i)

def findNs (srv : List Nameserver) (i : Nat) : Option Nameserver :=
  srv.find? (fun n => n.nsid = i)

def updateNs (srv : List Nameserver) (i : Nat) (f : Nameserver → Nameserver) :
    List Nameserver :=
  srv.map (fun n => if n.nsid = i then f n else n)

def updateReq (l : List Request) (i : Nat) (f : Request → Request) : List Request :=
  l.map (fun r => if r.reqId = i then f r else r)

/-- `evdns_request_insert` puts a request at the tail of a circular list. -/
def evdns_request_insert (req : Request) (l : List Request) : List Request :=
  l ++ [req]

/-- `request_find_from_trans_id`: walk the inflight list from the head and
return the first request whose transaction id matches. -/
def request_find_from_trans_id (s : DnsState) (t : Nat) : Option Request :=
  s.reqHead.find? (fun r => r.transId = t)

/-! ## `transaction_id_pick`

The C function draws 16-bit values from the configured entropy source until
one is neither `0xffff` nor "found" by the inflight scan.  The scan is the
do-while loop

    req = started_at = req_head;
    if (req) { do { if (req->trans_id == trans_id) break; req = req->next; }
               while (req != started_at); }
    if (req == started_at) return trans_id;

If the *head* of the list matches, the loop breaks with `req == started_at`
still true, so the candidate is accepted even though it collides; only a
match strictly after the head is rejected.  `trans_id_scan_ok` reproduces
exactly that behaviour. -/

def trans_id_scan_ok (reqs : List Request) (t : Nat) : Bool :=
  match reqs with
  | [] => true
  | r0 :: rest => r0.transId = t || rest.all (fun r => r.transId ≠ t)

/-- Draw entropy words until the scan accepts one; `none` when the supplied
entropy list is exhausted (the C loop would keep drawing forever). -/
def transaction_id_pick_go : List Nat → List Request → Option (Nat × List Nat)
  | [], _ => none
  | e :: es, reqs =>
    let t := e % 65536
    if t = 0xffff then transaction_id_pick_go es reqs
    else if trans_id_scan_ok reqs t then some (t, es)
    else transaction_id_pick_go es reqs

def transaction_id_pick (s : DnsState) : Nat × DnsState :=
  match transaction_id_pick_go s.entropy s.reqHead with
  | some (t, es) => (t, { s with entropy := es })
  | none => (0xffff, { s with entropy := [] })

/-! ## `nameserver_pick`

Rotates the circular list head; returns the previous head when it is up,
otherwise keeps rotating until an up server is found or one full revolution
completes, in which case it returns (and rotates past) the wrapped-around
head.  The fuel argument counts the rotations remaining until the wrap;
the entry point passes the list length. -/

def rotate1 : List Nameserver → List Nameserver
  | [] => []
  | x :: xs => xs ++ [x]

def nameserver_pick_go : Nat → List Nameserver → Option Nameserver × List Nameserver
  | _, [] => (none, [])
  | 0, srv => (none, srv)
  | fuel+1, h :: t =>
    if h.state then (some h, rotate1 (h :: t))
    else
      let srv1 := rotate1 (h :: t)
      if fuel = 0 then
        -- `server_head == started_at`: pick the wrapped head and rotate again
        (srv1.head?, rotate1 srv1)
      else nameserver_pick_go fuel srv1

def nameserver_pick (srv : List Nameserver) (good : Int) :
    Option Nameserver × List Nameserver :=
  match srv with
  | [] => (none, [])
  | _ =>
    if good = 0 then
      let srv1 := rotate1 srv
      (srv1.head?, srv1)
    else nameserver_pick_go srv.length srv

/-! ## Transmission

`evdns_request_transmit_to` writes the packet onto the connected socket.
The embedding abstracts socket writes as always succeeding, so the only
failure path kept from the source is the pre-check on a choked server;
a successful send appends the request's identity to the `transmits` trace.
The per-request timeout event is owned by the event loop and is not part
of the state. -/

def evdns_request_transmit (req : Request) (s : DnsState) : Request × DnsState :=
  let req1 := { req with transmitMe := true }
  let canSend : Bool :=
    match req1.ns with
    | none => false         -- the C code would dereference a null server here
    | some i =>
      match findNs s.servers i with
      | none => false       -- dangling server pointer: unreachable in the modelled flows
      | some ns => !ns.choaked
  if canSend then
    let req2 := { req1 with txCount := req1.txCount + 1, transmitMe := false }
    (req2, { s with transmits := s.transmits ++ [req2.reqId] })
  else (req1, s)

/-- `evdns_transmit`: walk the inflight list and (re)send everything whose
`transmit_me` flag is set. -/
def evdns_transmit_go : List Request → DnsState → List Request × DnsState
  | [], s => ([], s)
  | r :: rest, s =>
    if r.transmitMe then
      let x := evdns_request_transmit r s
      let y := evdns_transmit_go rest x.2
      (x.1 :: y.1, y.2)
    else
      let y := evdns_transmit_go rest s
      (r :: y.1, y.2)

def evdns_transmit (s : DnsState) : DnsState :=
  let y := evdns_transmit_go s.reqHead s
  { y.2 with reqHead := y.1 }

/-! ## Nameserver health -/

/-- `nameserver_up`: when a down server answers, re-mark it up, clear its
counters and cancel the probe timer (the timer lives in the event loop). -/
def nameserver_up (s : DnsState) (nsOpt : Option Nat) : DnsState :=
  match nsOpt with
  | none => s
  | some i =>
    match findNs s.servers i with
    | none => s
    | some ns =>
      if ns.state then s
      else
        { s with
          servers := (updateNs s.servers i
            (fun n => { n with state := true, failedTimes := 0, timedout := 0 })),
          good := s.good + 1 }

/-- The inflight walk at the end of `nameserver_failed`: every request that
has not yet transmitted (`tx_count == 0`) and is homed on the failed server
is re-homed via `nameserver_pick` (which rotates the ring as it goes). -/
def rehome_go (i : Nat) :
    List Request → List Nameserver → Int → List Request × List Nameserver
  | [], srv, _ => ([], srv)
  | r :: rest, srv, good =>
    if r.txCount = 0 ∧ r.ns = some i then
      let p := nameserver_pick srv good
      let y := rehome_go i rest p.2 good
      ({ r with ns := p.1.map (fun n => n.nsid) } :: y.1, y.2)
    else
      let y := rehome_go i rest srv good
      (r :: y.1, y.2)

/-- `nameserver_failed`: no-op if the server is already down; otherwise
decrement the good count, mark it down with `failed_times = 1`, schedule the
first probe (event-loop side), and — when any good server remains — re-home
the not-yet-transmitted inflight requests. -/
def nameserver_failed (s : DnsState) (nsOpt : Option Nat) : DnsState :=
  match nsOpt with
  | none => s
  | some i =>
    match findNs s.servers i with
    | none => s
    | some ns =>
      if ns.state = false then s
      else
        let s1 := { s with
          good := s.good - 1,
          servers := (updateNs s.servers i
            (fun n => { n with state := false, failedTimes := 1 })) }
        if s1.good = 0 then s1
        else
          let y := rehome_go i s1.reqHead s1.servers s1.good
          { s1 with reqHead := y.1, servers := y.2 }

/-! ## Queue discipline -/

def request_trans_id_set (req : Request) (t : Nat) : Request :=
  { req with transId := t }

/-- One iteration of the `pump_waiting` while-loop moves the head of the
waiting queue to the inflight queue: fix the counters, pick a nameserver,
pick a transaction id, splice at the inflight tail, transmit it, then run
the global `evdns_transmit` sweep.  The fuel is the waiting-list length at
entry, an upper bound on the number of iterations. -/
def pump_step (s : DnsState) (req : Request) (rest : List Request) : DnsState :=
  let s1 := { s with reqWaitingHead := rest, waiting := s.waiting - 1,
                     inflight := s.inflight + 1 }
  let pickR := nameserver_pick s1.servers s1.good
  let req1 := { req with ns := pickR.1.map (fun n => n.nsid) }
  let s2 := { s1 with servers := pickR.2 }
  let tidR := transaction_id_pick s2
  let req2 := request_trans_id_set req1 tidR.1
  let s3 := tidR.2
  let txR := evdns_request_transmit req2 s3
  let s4 := { txR.2 with reqHead := evdns_request_insert txR.1 txR.2.reqHead }
  evdns_transmit s4

def pumpLoop : Nat → DnsState → DnsState
  | 0, s => s
  | fuel+1, s =>
    if s.inflight < s.cap ∧ s.waiting ≠ 0 then
      match s.reqWaitingHead with
      | [] => s   -- the C code asserts `req_waiting_head` here
      | req :: rest => pumpLoop fuel (pump_step s req rest)
    else s

def evdns_requests_pump_waiting_queue (s : DnsState) : DnsState :=
  pumpLoop s.reqWaitingHead.length s

/-- `request_finished` on the inflight list: unlink the request, decrement
the inflight counter, release the search reference (pure ref-counting, no
state effect here) and pump the waiting queue. -/
def request_finished (s : DnsState) (i : Nat) : DnsState :=
  let s1 := { s with reqHead := s.reqHead.filter (fun r => r.reqId ≠ i),
                     inflight := s.inflight - 1 }
  evdns_requests_pump_waiting_queue s1

/-- `request_reissue`: pick another server; if the pick returns the same
server the reissue is pointless (return 1), otherwise reset the transmit
count, flag for retransmission and count the reissue (return 0). -/
def request_reissue (req : Request) (s : DnsState) : Nat × Request × DnsState :=
  let lastNs := req.ns
  let pickR := nameserver_pick s.servers s.good
  let s1 := { s with servers := pickR.2 }
  let newNs := pickR.1.map (fun n => n.nsid)
  if newNs = lastNs then (1, req, s1)
  else
    (0, { req with ns := newNs, reissueCount := req.reissueCount + 1,
                   txCount := 0, transmitMe := true }, s1)

/-! ## String helpers

eventdns works on C strings; the embedding works on `List Char` (Lean
`String` is a structure over `List Char`, which keeps kernel evaluation
cheap).  `split_on_pred` reproduces splitting at every separator, keeping
empty pieces, as the `strchr`-based loops in the source do. -/

def split_on_pred (p : Char → Bool) : List Char → List (List Char)
  | [] => [[]]
  | c :: rest =>
    if p c then [] :: split_on_pred p rest
    else
      match split_on_pred p rest with
      | [] => [[c]]
      | l :: ls => (c :: l) :: ls

def split_dots (cs : List Char) : List (List Char) :=
  split_on_pred (fun c => c = '.') cs

def list_starts_with : List Char → List Char → Bool
  | _, [] => true
  | [], _ :: _ => false
  | c :: cs, d :: ds => c = d && list_starts_with cs ds

/-- `string_num_dots`: count the dots of a name (the C version iterates
`strchr`). -/
def string_num_dots (sName : String) : Nat :=
  sName.toList.countP (fun c => c = '.')

/-- The failure condition of `evdns_request_data_build` /
`dnsname_to_labels`: the name must be at most 255 bytes and every
dot-separated label at most 63 bytes (the query buffer sized by
`evdns_request_len` always fits otherwise). -/
def data_build_ok (name : String) : Bool :=
  name.toList.length ≤ 255 &&
    (split_dots name.toList).all (fun l => l.length ≤ 63)

/-! ## Request construction and submission -/

/-- `request_new`: decide `issuing_now` from the inflight counter; a request
created with capacity draws a transaction id and picks a nameserver, one
created without capacity gets the sentinel `0xffff` and no nameserver.  The
search fields are zeroed (`memset`); `request_new` itself ignores the flags
argument.  Returns `none` when the wire query cannot be built. -/
def request_new (s : DnsState) (rtype : Nat) (name : String) (cb : Nat) :
    Option Request × DnsState :=
  -- `issuing_now` is `global_requests_inflight < global_max_requests_inflight`,
  -- read once; nothing below changes the inflight counter before its second use
  let tidR := if s.inflight < s.cap then transaction_id_pick s else (0xffff, s)
  let s1 := tidR.2
  if data_build_ok name = false then (none, s1)
  else
    let pickR := if s.inflight < s.cap then nameserver_pick s1.servers s1.good
                 else (none, s1.servers)
    let req : Request := {
      reqId := s1.nextId, transId := tidR.1, txCount := 0, reissueCount := 0,
      transmitMe := false, ns := pickR.1.map (fun n => n.nsid),
      reqType := rtype, name := name, cbId := cb,
      searchIndex := 0, searchOrigname := none, searchCfgRef := none,
      searchFlags := 0 }
    (some req, { s1 with servers := pickR.2, nextId := s1.nextId + 1 })

/-- `request_submit`: a request with a nameserver goes straight onto the
inflight list and is transmitted; one without goes onto the waiting list. -/
def request_submit (req : Request) (s : DnsState) : DnsState :=
  match req.ns with
  | some _ =>
    let s1 := { s with inflight := s.inflight + 1 }
    let txR := evdns_request_transmit req s1
    { txR.2 with reqHead := evdns_request_insert txR.1 txR.2.reqHead }
  | none =>
    { s with reqWaitingHead := evdns_request_insert req s.reqWaitingHead,
             waiting := s.waiting + 1 }

/-! ## Search engine -/

/-- `search_make_new`: append the `n`-th suffix domain to the base name,
inserting a dot unless the base already ends in one.  Walking past the end
of the list aborts in C; here it is `none`.  (For an empty base the C code
reads one byte before the buffer; the embedding treats it as needing a
dot.) -/
def search_make_new (cfg : SearchCfg) (n : Nat) (base : String) : Option String :=
  match cfg.domains[n]? with
  | none => none
  | some dom =>
    let needDot := match base.toList.getLast? with
                   | some '.' => false
                   | _ => true
    some (if needDot then base ++ "." ++ dom else base ++ dom)

/-- `search_request_new`: with searching enabled and a non-empty suffix
list, a name with at least `ndots` dots starts at the bare name with
`search_index = -1`; otherwise it starts at suffix 0.  Without searching
the request is submitted plainly. -/
def search_request_new (s : DnsState) (rtype : Nat) (name : String)
    (flags : Nat) (cb : Nat) : Nat × DnsState :=
  match s.searchCfg with
  | some cfg =>
    if flags &&& DNS_QUERY_NO_SEARCH = 0 ∧ cfg.domains.length ≠ 0 then
      if (string_num_dots name : Int) ≥ cfg.ndots then
        match request_new s rtype name cb with
        | (none, s1) => (1, s1)
        | (some req, s1) =>
          let req1 := { req with searchIndex := -1, searchOrigname := some name,
                                 searchCfgRef := some cfg, searchFlags := flags }
          (0, request_submit req1 s1)
      else
        match search_make_new cfg 0 name with
        | none => (1, s)
        | some newName =>
          match request_new s rtype newName cb with
          | (none, s1) => (1, s1)
          | (some req, s1) =>
            let req1 := { req with searchIndex := 0, searchOrigname := some name,
                                   searchCfgRef := some cfg, searchFlags := flags }
            (0, request_submit req1 s1)
    else
      match request_new s rtype name cb with
      | (none, s1) => (1, s1)
      | (some req, s1) => (0, request_submit req s1)
  | none =>
    match request_new s rtype name cb with
    | (none, s1) => (1, s1)
    | (some req, s1) => (0, request_submit req s1)

/-- `search_try_next`: advance the search index; past the end of the suffix
list the bare original name is tried iff it has fewer than `ndots` dots
(that final request carries no search state, so its outcome goes straight
to the user callback).  Returns 0 when a new request was submitted, 1 when
the caller should surface the failure. -/
def search_try_next (s : DnsState) (req : Request) : Nat × DnsState :=
  match req.searchCfgRef with
  | none => (1, s)
  | some cfg =>
    let idx := req.searchIndex + 1
    let orig := req.searchOrigname.getD ""
    if idx ≥ (cfg.domains.length : Int) then
      if (string_num_dots orig : Int) < cfg.ndots then
        match request_new s req.reqType orig req.cbId with
        | (none, s1) => (1, s1)
        | (some newreq, s1) => (0, request_submit newreq s1)
      else (1, s)
    else
      match search_make_new cfg idx.toNat orig with
      | none => (1, s)
      | some newName =>
        match request_new s req.reqType newName req.cbId with
        | (none, s1) => (1, s1)
        | (some newreq, s1) =>
          let newreq1 := { newreq with
            searchOrigname := req.searchOrigname, searchCfgRef := some cfg,
            searchFlags := req.searchFlags, searchIndex := idx }
          (0, request_submit newreq1 s1)

/-! ## Reply dispatch -/

structure Reply where
  rtype : Nat
  have_answer : Bool
  addrcount : Nat
  addresses : List Nat
  ptrName : List Char
deriving Repr, DecidableEq

/-- `reply_callback` records the user-callback invocation in the trace;
its payload (addresses / PTR name) is delivered to the opaque callback. -/
def reply_callback_trace (s : DnsState) (req : Request) (err : Nat) : DnsState :=
  { s with callbacks := s.callbacks ++ [(req.cbId, err)] }

def error_codes_arr : List Nat :=
  [DNS_ERR_FORMAT, DNS_ERR_SERVERFAILED, DNS_ERR_NOTEXIST, DNS_ERR_NOTIMPL,
   DNS_ERR_REFUSED]

/-- The error decode at the top of `reply_handle`: the truncation bit wins,
otherwise `(flags & 0x000f) - 1` (16-bit arithmetic, so RCODE 0 wraps to
65535) indexes the error table, anything past index 4 being UNKNOWN. -/
def error_code_of_flags (flags : Nat) : Nat :=
  if flags &&& 0x0200 ≠ 0 then DNS_ERR_TRUNCATED
  else
    let ec := ((flags &&& 0x000f) + 65535) % 65536
    if 4 < ec then DNS_ERR_UNKNOWN
    else error_codes_arr.getD ec DNS_ERR_UNKNOWN

/-- `reply_handle`: dispatch a parsed reply for `req` (a member of the
inflight list).  Error path: ServFail/NotImpl/Refused mark the server
failed and attempt a reissue while the budget allows (a successful reissue
returns without touching the user callback); other errors mark the server
up; then a pending search advances; otherwise the error is surfaced and the
request finished.  Success path: callback, server up, finished. -/
def reply_is_error (flags : Nat) (reply : Option Reply) : Bool :=
  decide (flags &&& 0x020f ≠ 0) ||
    (match reply with
     | none => true
     | some rep => !rep.have_answer)

def reply_handle (s : DnsState) (req : Request) (flags : Nat) (ttl : Nat)
    (reply : Option Reply) : DnsState :=
  if reply_is_error flags reply then
    let error := error_code_of_flags flags
    let act : Bool × DnsState :=
      if error = DNS_ERR_SERVERFAILED ∨ error = DNS_ERR_NOTIMPL ∨
         error = DNS_ERR_REFUSED then
        if (req.reissueCount : Int) < s.maxReissues then
          let s1 := nameserver_failed s req.ns
          -- re-read through the request pointer: the failed-server walk may
          -- have re-homed it
          let req1 := (findReqL s1.reqHead req.reqId).getD req
          let riR := request_reissue req1 s1
          if riR.1 = 0 then
            (true, { riR.2.2 with
                     reqHead := (updateReq riR.2.2.reqHead req.reqId
                       (fun _ => riR.2.1)) })
          else (false, riR.2.2)
        else (false, s)
      else (false, nameserver_up s req.ns)
    if act.1 then act.2
    else
      let s2 := act.2
      let req2 := (findReqL s2.reqHead req.reqId).getD req
      if req2.searchCfgRef.isSome ∧ req2.reqType ≠ TYPE_PTR then
        match search_try_next s2 req2 with
        | (0, s3) => request_finished s3 req.reqId
        | (_, s3) =>
          request_finished (reply_callback_trace s3 req2 error) req.reqId
      else
        request_finished (reply_callback_trace s2 req2 error) req.reqId
  else
    let s1 := reply_callback_trace s req DNS_ERR_NONE
    let s2 := nameserver_up s1 req.ns
    request_finished s2 req.reqId

/-! ## Timeout path -/

/-- `evdns_request_timeout_callback`: bump the assigned server's
consecutive-timeout counter, failing the server (and resetting the counter)
once it exceeds the per-server maximum; then either surface TIMEOUT and
finish the request (when `tx_count` has reached `max_retransmits`) or
retransmit it. -/
def evdns_request_timeout_callback (s : DnsState) (i : Nat) : DnsState :=
  match findReqL s.reqHead i with
  | none => s     -- the timer is only ever armed for an inflight request
  | some req =>
    let sMid :=
      match req.ns with
      | none => s   -- C would dereference a null server; unreachable inflight
      | some nsIdx =>
        let sA := { s with servers := (updateNs s.servers nsIdx
                     (fun n => { n with timedout := n.timedout + 1 })) }
        match findNs sA.servers nsIdx with
        | none => sA
        | some ns =>
          if (ns.timedout : Int) > sA.maxNsTimeout then
            let sB := { sA with servers := (updateNs sA.servers nsIdx
                         (fun n => { n with timedout := 0 })) }
            nameserver_failed sB (some nsIdx)
          else sA
    -- re-read through the pointer after the failed-server walk
    let req1 := (findReqL sMid.reqHead i).getD req
    if (req1.txCount : Int) ≥ sMid.maxRetransmits then
      request_finished (reply_callback_trace sMid req1 DNS_ERR_TIMEOUT) i
    else
      let txR := evdns_request_transmit req1 sMid
      { txR.2 with reqHead := updateReq txR.2.reqHead i (fun _ => txR.1) }

/-! ## Registry: add, clear-and-suspend, resume -/

/-- `evdns_nameserver_add`: refuse duplicate addresses (return 3); otherwise
create an up server (socket setup abstracted as succeeding) and link it
immediately after the current head of the ring. -/
def evdns_nameserver_add (s : DnsState) (address : Nat) : Nat × DnsState :=
  if s.servers.any (fun n => n.address = address) then (3, s)
  else
    let ns : Nameserver := { nsid := s.nextId, address := address, state := true,
                             failedTimes := 0, timedout := 0, choaked := false }
    let srv := match s.servers with
               | [] => [ns]
               | h :: t => h :: ns :: t
    (0, { s with servers := srv, good := s.good + 1, nextId := s.nextId + 1 })

/-- The per-request reset performed by `evdns_clear_nameservers_and_suspend`:
counters zeroed, nameserver detached, `trans_id` set to 0 (not the 0xffff
sentinel), `transmit_me` cleared. -/
def suspend_request (r : Request) : Request :=
  { r with txCount := 0, reissueCount := 0, ns := none, transId := 0,
           transmitMe := false }

/-- `evdns_clear_nameservers_and_suspend`: with no servers configured it
returns immediately; otherwise every server is freed and every inflight
request is reset and spliced in at the waiting-list head (insert at the
tail of the circle, then shift the head back one). -/
def evdns_clear_nameservers_and_suspend (s : DnsState) : DnsState :=
  if s.servers.isEmpty then s
  else
    let w := s.reqHead.foldl
      (fun acc r => suspend_request r :: acc) s.reqWaitingHead
    { s with servers := [], good := 0,
             reqWaitingHead := w,
             waiting := s.waiting + (s.reqHead.length : Int),
             reqHead := [], inflight := 0 }

def evdns_resume (s : DnsState) : DnsState :=
  evdns_requests_pump_waiting_queue s

/-! ## Probes and the resolver entry points -/

/-- The callback identity used for `nameserver_probe_callback` requests
(the probe callback is not a user callback; its effects on the prober are
outside the modelled flows). -/
def PROBE_CB : Nat := 999999

/-- `nameserver_send_probe`: build a `www.google.com` A query with search
disabled, then force it into the inflight queue no matter what: fresh
transaction id, nameserver pinned to the probed server, submit. -/
def nameserver_send_probe (s : DnsState) (i : Nat) : DnsState :=
  match request_new s TYPE_A "www.google.com" PROBE_CB with
  | (none, s1) => s1
  | (some req, s1) =>
    let tidR := transaction_id_pick s1
    let req1 := request_trans_id_set req tidR.1
    let req2 := { req1 with ns := some i }
    request_submit req2 tidR.2

/-- `evdns_resolve_ipv4`: with `DNS_QUERY_NO_SEARCH` submit directly,
otherwise through the search engine.  Returns the C return value (0 ok,
1 allocation/encoding failure). -/
def evdns_resolve_ipv4 (s : DnsState) (name : String) (flags : Nat) (cb : Nat) :
    Nat × DnsState :=
  if flags &&& DNS_QUERY_NO_SEARCH ≠ 0 then
    match request_new s TYPE_A name cb with
    | (none, s1) => (1, s1)
    | (some req, s1) => (0, request_submit req s1)
  else search_request_new s TYPE_A name flags cb

/-! ## The search attempt order (pure view)

The sequence of names a searched resolve tries when every attempt fails
with an error: the first name from `search_request_new`, every later one
from the `search_try_next` chain, each advancing `search_index` by one. -/

def search_attempts_go (cfg : SearchCfg) (orig : String) :
    Int → Nat → List String
  | _, 0 => []
  | idx, fuel+1 =>
    let idx1 := idx + 1
    if idx1 ≥ (cfg.domains.length : Int) then
      if (string_num_dots orig : Int) < cfg.ndots then [orig] else []
    else
      match search_make_new cfg idx1.toNat orig with
      | none => []
      | some nm => nm :: search_attempts_go cfg orig idx1 fuel

/-- All names attempted, in order, for a searched resolve of `name` under
`cfg` when every attempt errors. -/
def search_attempts (cfg : SearchCfg) (name : String) : List String :=
  if cfg.domains.length = 0 then [name]
  else if (string_num_dots name : Int) ≥ cfg.ndots then
    name :: search_attempts_go cfg name (-1) (cfg.domains.length + 1)
  else
    match search_make_new cfg 0 name with
    | none => []
    | some nm => nm :: search_attempts_go cfg name 0 (cfg.domains.length + 1)

/-- The suffix-appended form of a base name, as `search_make_new` builds
it. -/
def appended_name (base dom : String) : String :=
  if (match base.toList.getLast? with
      | some '.' => false
      | _ => true)
  then base ++ "." ++ dom else base ++ dom

/-! ## Parsing resolv.conf

The file-system side (`open`/`fstat`/`malloc`/`read`) is abstracted as a
`ResolvFile` value describing which syscall outcome the C code observes;
the text content is carried for the successful case. -/

inductive ResolvFile where
  | openFail : ResolvFile
  | statFail : ResolvFile
  | tooLarge : ResolvFile      -- st_size > 65535
  | oom : ResolvFile           -- malloc failed
  | shortRead : ResolvFile
  | content : String → ResolvFile
deriving Repr, DecidableEq

/-- `strtoint`: `strtol` base 10 over the whole string, −1 when anything
trails the number (`*endptr != 0`); an empty string yields 0 because
`strtol` performs no conversion and leaves `endptr` at the terminator.
(`strtol`'s overflow clamping is not modelled.) -/
def parse_digits : List Char → Nat → Nat × List Char
  | [], acc => (acc, [])
  | c :: cs, acc =>
    if c.isDigit then parse_digits cs (acc * 10 + (c.toNat - 48))
    else (acc, c :: cs)

def strtoint (cs0 : List Char) : Int :=
  let cs := cs0.dropWhile (fun c => c = ' ' ∨ c = '\t' ∨ c = '\n' ∨ c = '\r')
  let signR : Int × List Char :=
    match cs with
    | '-' :: r => (-1, r)
    | '+' :: r => (1, r)
    | r => (1, r)
  match signR.2 with
  | c :: _ =>
    if c.isDigit then
      let dR := parse_digits signR.2 0
      if dR.2 = [] then signR.1 * dR.1 else -1
    else if cs0 = [] then 0 else -1
  | [] => if cs0 = [] then 0 else -1

/-- `inet_aton` for the dotted-quad form (the only form the resolver's
callers use); the result is the 32-bit address as a natural number. -/
def parse_byte (t : List Char) : Option Nat :=
  if t ≠ [] ∧ t.all Char.isDigit then
    let v := t.foldl (fun a c => a * 10 + (c.toNat - 48)) 0
    if v ≤ 255 then some v else none
  else none

def parse_ipv4 (ip : String) : Option Nat :=
  match split_dots ip.toList with
  | [a, b, c, d] =>
    match parse_byte a, parse_byte b, parse_byte c, parse_byte d with
    | some x, some y, some z, some w =>
      some (((x * 256 + y) * 256 + z) * 256 + w)
    | _, _, _, _ => none
  | _ => none

def evdns_nameserver_ip_add (s : DnsState) (ip : String) : Nat × DnsState :=
  match parse_ipv4 ip with
  | none => (4, s)
  | some a => evdns_nameserver_add s a

/-- `search_state_new`: fresh search state, `ndots` defaulting to 1. -/
def search_state_new : SearchCfg := { ndots := 1, domains := [] }

/-- `search_postfix_clear` in the source: drop the shared search state and
start a fresh one. -/
def search_domain_clear (s : DnsState) : DnsState :=
  { s with searchCfg := some search_state_new }

def drop_leading_dots : List Char → List Char
  | '.' :: r => drop_leading_dots r
  | r => r

/-- `search_postfix_add` in the source: strip leading dots and push the
domain at the head of the suffix list. -/
def search_domain_add (s : DnsState) (domain : String) : DnsState :=
  let dom : String := ⟨drop_leading_dots domain.toList⟩
  let cfg := s.searchCfg.getD search_state_new
  { s with searchCfg := some { cfg with domains := dom :: cfg.domains } }

/-- `search_reverse`: the resolv.conf `search` directive pushes domains in
reverse, so the list is reversed afterwards. -/
def search_reverse (s : DnsState) : DnsState :=
  match s.searchCfg with
  | none => s
  | some cfg => { s with searchCfg := some { cfg with domains := cfg.domains.reverse } }

/-- `search_set_from_hostname`: clear the suffix list and, when the
hostname contains a dot, add everything from the first dot on. -/
def search_set_from_hostname (s : DnsState) : DnsState :=
  let s1 := search_domain_clear s
  match s1.hostname with
  | none => s1                      -- gethostname failed
  | some hn =>
    match hn.toList.dropWhile (fun c => c ≠ '.') with
    | [] => s1                      -- no dot in the hostname
    | dn => search_domain_add s1 ⟨dn⟩

/-- `evdns_resolv_set_defaults`: hostname-derived search suffix and the
loopback nameserver, each guarded by its option flag. -/
def evdns_resolv_set_defaults (s : DnsState) (flags : Nat) : DnsState :=
  let s1 := if flags &&& DNS_OPTION_SEARCH ≠ 0 then search_set_from_hostname s else s
  if flags &&& DNS_OPTION_NAMESERVERS ≠ 0 then
    (evdns_nameserver_ip_add s1 "127.0.0.1").2
  else s1

def resolv_tokens (line : String) : List (List Char) :=
  (split_on_pred (fun c => c = ' ' ∨ c = '\t') line.toList).filter
    (fun t => t ≠ [])

/-- One `options` token: `ndots:N` (search flag), `timeout:N` and
`attempts:N` (misc flag, attempts clamped to 255); a failed `strtoint`
skips the token. -/
def resolv_conf_parse_option (s : DnsState) (opt : List Char) (flags : Nat) :
    DnsState :=
  if list_starts_with opt "ndots:".toList then
    let n := strtoint (opt.drop 6)
    if n = -1 then s
    else if flags &&& DNS_OPTION_SEARCH = 0 then s
    else
      let cfg := s.searchCfg.getD search_state_new
      { s with searchCfg := some { cfg with ndots := n } }
  else if list_starts_with opt "timeout:".toList then
    let n := strtoint (opt.drop 8)
    if n = -1 then s
    else if flags &&& DNS_OPTION_MISC = 0 then s
    else { s with timeoutSecs := n }
  else if list_starts_with opt "attempts:".toList then
    let n := strtoint (opt.drop 9)
    if n = -1 then s
    else
      let n1 := if n > 255 then 255 else n
      if flags &&& DNS_OPTION_MISC = 0 then s
      else { s with maxRetransmits := n1 }
  else s

/-- `resolv_conf_parse_line`: recognised directives are `nameserver`,
`domain`, `search` and `options`; anything else is ignored. -/
def resolv_conf_parse_line (s : DnsState) (line : String) (flags : Nat) :
    DnsState :=
  match resolv_tokens line with
  | [] => s
  | first :: rest =>
    if first = "nameserver".toList then
      match rest.head? with
      | none => s    -- the C code hands NULL to inet_aton here
      | some ip =>
        match parse_ipv4 ⟨ip⟩ with
        | some a => (evdns_nameserver_add s a).2
        | none => s
    else if first = "domain".toList ∧ flags &&& DNS_OPTION_SEARCH ≠ 0 then
      match rest.head? with
      | none => s
      | some dom => search_domain_add (search_domain_clear s) ⟨dom⟩
    else if first = "search".toList ∧ flags &&& DNS_OPTION_SEARCH ≠ 0 then
      let s1 := search_domain_clear s
      let s2 := rest.foldl (fun st d => search_domain_add st (⟨d⟩ : String)) s1
      search_reverse s2
    else if first = "options".toList then
      rest.foldl (fun st opt => resolv_conf_parse_option st opt flags) s
    else s

/-- `evdns_resolv_conf_parse`.  Note the open-failure branch: the source
installs the defaults and returns 0, although both its API comment block
and the comment directly above the function document the return value
1 "failed to open file".  An empty file also installs defaults with
return 0; stat failure, an over-large file, allocation failure and a short
read return 2, 3, 4 and 5.  After a successful parse, a missing nameserver
line falls back to the loopback server and an empty suffix list falls back
to the hostname-derived suffix. -/
def evdns_resolv_conf_parse (s : DnsState) (flags : Nat) (file : ResolvFile) :
    Nat × DnsState :=
  match file with
  | .openFail => (0, evdns_resolv_set_defaults s flags)
  | .statFail => (2, s)
  | .tooLarge => (3, s)
  | .oom => (4, s)
  | .shortRead => (5, s)
  | .content text =>
    if text.toList.length = 0 then (0, evdns_resolv_set_defaults s flags)
    else
      let lines := (split_on_pred (fun c => c = '\n') text.toList).map
        (fun l => (⟨l⟩ : String))
      let s1 := lines.foldl (fun st line => resolv_conf_parse_line st line flags) s
      let s2 := if s1.servers.isEmpty ∧ flags &&& DNS_OPTION_NAMESERVERS ≠ 0 then
                  (evdns_nameserver_ip_add s1 "127.0.0.1").2
                else s1
      let s3 := if flags &&& DNS_OPTION_SEARCH ≠ 0 ∧
                   (match s2.searchCfg with
                    | none => true
                    | some c => c.domains.length = 0) = true then
                  search_set_from_hostname s2
                else s2
      (0, s3)

/-! ## `reply_parse`

The GET16/GET32 macros with their bounds checks, the question-skipping
loop, and the answer walk.  A `none` result means a `name_parse` call ran
out of fuel, i.e. the C decoder diverged (see `name_parse`); `some (-1, s')`
and `some (0, s')` are the C return values together with the resulting
state. -/

def get16 (p : List Nat) (j : Nat) : Option (Nat × Nat) :=
  if j + 2 ≤ p.length then some ((p.getD j 0) * 256 + p.getD (j+1) 0, j + 2)
  else none

def get32 (p : List Nat) (j : Nat) : Option (Nat × Nat) :=
  if j + 4 ≤ p.length then
    some ((((p.getD j 0) * 256 + p.getD (j+1) 0) * 256 + p.getD (j+2) 0) * 256 +
            p.getD (j+3) 0, j + 4)
  else none

/-- The question-skipping loop: `SKIP_NAME; j += 4; if (j >= length)
return -1;` repeated `questions` times. -/
def skip_questions (packet : List Nat) (fuelNp : Nat) :
    Nat → Nat → Option (Option Nat)
  | 0, j => some (some j)
  | n+1, j =>
    match name_parse packet j 256 fuelNp with
    | none => none
    | some none => some none
    | some (some (_, j1)) =>
      let j2 := j1 + 4
      if packet.length ≤ j2 then some none
      else skip_questions packet fuelNp n j2

/-- The answer walk: `<name><type><class><ttl><len><data>`, copying at most
four A addresses (with the running minimum TTL), decoding one PTR name,
and skipping AAAA and everything else by `datalength`. -/
def answers_walk (packet : List Nat) (fuelNp : Nat) (reqType : Nat) :
    Nat → Nat → Reply → Nat → Option (Option (Reply × Nat))
  | 0, _, rep, ttlR => some (some (rep, ttlR))
  | n+1, j, rep, ttlR =>
    match name_parse packet j 256 fuelNp with
    | none => none
    | some none => some none
    | some (some (_, j0)) =>
      match get16 packet j0 with
      | none => some none
      | some (rtype, j1) =>
        match get16 packet j1 with
        | none => some none
        | some (rclass, j2) =>
          match get32 packet j2 with
          | none => some none
          | some (ttl, j3) =>
            match get16 packet j3 with
            | none => some none
            | some (datalength, j4) =>
              if rtype = TYPE_A ∧ rclass = CLASS_INET then
                if reqType ≠ TYPE_A then
                  answers_walk packet fuelNp reqType n (j4 + datalength) rep ttlR
                else
                  let addrtocopy := min (4 - rep.addrcount) (datalength / 4)
                  let ttlR1 := min ttlR ttl
                  if packet.length < j4 + 4 * addrtocopy then some none
                  else
                    let words := (List.range addrtocopy).map (fun k =>
                      (((packet.getD (j4 + 4*k) 0) * 256 +
                         packet.getD (j4 + 4*k + 1) 0) * 256 +
                        packet.getD (j4 + 4*k + 2) 0) * 256 +
                       packet.getD (j4 + 4*k + 3) 0)
                    let rep1 := { rep with
                      addrcount := rep.addrcount + addrtocopy,
                      addresses := rep.addresses ++ words, have_answer := true }
                    if rep1.addrcount = 4 then some (some (rep1, ttlR1))
                    else answers_walk packet fuelNp reqType n
                           (j4 + 4 * addrtocopy) rep1 ttlR1
              else if rtype = TYPE_PTR ∧ rclass = CLASS_INET then
                if reqType ≠ TYPE_PTR then
                  answers_walk packet fuelNp reqType n (j4 + datalength) rep ttlR
                else
                  match name_parse packet j4 255 fuelNp with
                  | none => none
                  | some none => some none
                  | some (some (nm, _)) =>
                    some (some ({ rep with ptrName := nm, have_answer := true },
                                ttlR))
              else if rtype = TYPE_AAAA ∧ rclass = CLASS_INET then
                -- the AAAA case is unimplemented in the source and skips
                answers_walk packet fuelNp reqType n (j4 + datalength) rep ttlR
              else
                answers_walk packet fuelNp reqType n (j4 + datalength) rep ttlR

/-- `reply_parse`: read the six-field header, find the inflight request by
transaction id (error, with no state change, when there is none), require
the answer bit, dispatch flag errors straight to `reply_handle`, otherwise
skip the questions, walk the answers and dispatch the assembled reply. -/
def reply_parse (packet : List Nat) (fuelNp : Nat) (s : DnsState) :
    Option (Int × DnsState) :=
  match get16 packet 0 with
  | none => some (-1, s)
  | some (transId, j1) =>
    match get16 packet j1 with
    | none => some (-1, s)
    | some (flags, j2) =>
      match get16 packet j2 with
      | none => some (-1, s)
      | some (questions, j3) =>
        match get16 packet j3 with
        | none => some (-1, s)
        | some (answers, j4) =>
          match get16 packet j4 with
          | none => some (-1, s)
          | some (_, j5) =>              -- authority count, unused
            match get16 packet j5 with
            | none => some (-1, s)
            | some (_, j6) =>            -- additional count, unused
              match request_find_from_trans_id s transId with
              | none => some (-1, s)
              | some req =>
                if flags &&& 0x8000 = 0 then some (-1, s)
                else if flags &&& 0x020f ≠ 0 then
                  some (-1, reply_handle s req flags 0 none)
                else
                  let rep0 : Reply := { rtype := req.reqType, have_answer := false,
                                        addrcount := 0, addresses := [],
                                        ptrName := [] }
                  match skip_questions packet fuelNp questions j6 with
                  | none => none
                  | some none => some (-1, s)
                  | some (some j7) =>
                    match answers_walk packet fuelNp req.reqType answers j7
                            rep0 0xffffffff with
                    | none => none
                    | some none => some (-1, s)
                    | some (some (rep, ttlR)) =>
                      some (0, reply_handle s req flags ttlR (some rep))

/-! ## Concrete states used by the theorems below -/

/-- A state with the library's default tunables and nothing configured:
inflight cap 64, timeout 5 s, max reissues 1, max retransmits 3, max
consecutive nameserver timeouts 3. -/
def initState : DnsState :=
  { reqHead := [], reqWaitingHead := [], servers := [], good := 0,
    inflight := 0, waiting := 0, cap := 64, maxReissues := 1,
    maxRetransmits := 3, maxNsTimeout := 3, timeoutSecs := 5,
    searchCfg := none, hostname := none, entropy := [], nextId := 0,
    transmits := [], callbacks := [] }

/-- A plain inflight request (no search state). -/
def mkInflightReq (rid tid : Nat) (nsIdx : Nat) : Request :=
  { reqId := rid, transId := tid, txCount := 1, reissueCount := 0,
    transmitMe := false, ns := some nsIdx, reqType := TYPE_A, name := "q",
    cbId := rid, searchIndex := 0, searchOrigname := none,
    searchCfgRef := none, searchFlags := 0 }

/-- A request parked on the waiting queue (sentinel id, no nameserver). -/
def mkWaitingReq (rid : Nat) : Request :=
  { reqId := rid, transId := 0xffff, txCount := 0, reissueCount := 0,
    transmitMe := false, ns := none, reqType := TYPE_A, name := "q",
    cbId := rid, searchIndex := 0, searchOrigname := none,
    searchCfgRef := none, searchFlags := 0 }

def mkUpNs (i addr : Nat) : Nameserver :=
  { nsid := i, address := addr, state := true, failedTimes := 0,
    timedout := 0, choaked := false }

/-- Scenario for claims C1/C5: requests `a,b` (ids 0,1) inflight on server
0, requests `c,d` (ids 2,3) waiting, one configured nameserver. -/
def suspendScenario : DnsState :=
  { initState with
    reqHead := [mkInflightReq 0 10 0, mkInflightReq 1 11 0],
    reqWaitingHead := [mkWaitingReq 2, mkWaitingReq 3],
    servers := [mkUpNs 0 0x7f000001], good := 1, inflight := 2, waiting := 2,
    entropy := [1, 2, 3, 4], nextId := 50 }

/-- Run of scenario 6 of the spec: clear-and-suspend, add a fresh
nameserver, resume. -/
def suspendResumeRun : DnsState :=
  let s1 := evdns_clear_nameservers_and_suspend suspendScenario
  let s2 := (evdns_nameserver_add s1 0x0a000001).2
  evdns_resume s2

/-- A state whose inflight queue is full at the default cap of 64, with one
healthy nameserver: the setting of the C4 probe counterexample. -/
def fullInflightState : DnsState :=
  { initState with
    reqHead := (List.range 64).map (fun k => mkInflightReq k k 0),
    servers := [mkUpNs 0 0x7f000001], good := 1, inflight := 64,
    entropy := [100], nextId := 1000 }

/-- A request that has exhausted its reissue budget (`reissue_count = 1` =
`global_max_reissues`), inflight on the single up server. -/
def exhaustedReissueReq : Request :=
  { mkInflightReq 7 21 0 with reissueCount := 1 }

/-- Setting of the C7 counterexample: the single nameserver answers the
exhausted-budget request with RCODE 2 (ServFail). -/
def servfailScenario : DnsState :=
  { initState with
    reqHead := [exhaustedReissueReq],
    servers := [mkUpNs 0 0x7f000001], good := 1, inflight := 1 }

/-- An inflight request whose transaction id 5 sits at the head of the
inflight list (C9). -/
def headCollisionReq : Request := mkInflightReq 0 5 0

/-- The search configuration of spec scenario 4 / claim C6. -/
def c6Cfg : SearchCfg := { ndots := 2, domains := ["corp.example", "example.com"] }

/-- Concrete state for the C2 evaluation: nothing configured, hostname
known to the kernel. -/
def c2State : DnsState := { initState with hostname := some "host.example.com" }

/-- A one-request inflight state used by the C8 witness: the request has
used all three default retransmits. -/
def timeoutScenario : DnsState :=
  { initState with
    reqHead := [{ mkInflightReq 0 10 0 with txCount := 3 }],
    servers := [mkUpNs 0 0x7f000001], good := 1, inflight := 1 }

/-- A 12-byte reply header whose transaction id (0x0005) matches no
inflight request of `servfailScenario` (C10 witness). -/
def strayHeaderPacket : List Nat :=
  [0x00, 0x05, 0x80, 0x00, 0x00, 0x00, 0x00, 0x00, 0x00, 0x00, 0x00, 0x00]

/-! ## Conclusion predicates for the C7 and C8 theorems -/

/-- The server that `request_reissue` would pick right after
`nameserver_failed` has run for server `i` — the comparison the reissue
decision is made on. -/
def c7_pick_after_fail (s : DnsState) (i : Nat) : Option Nat :=
  ((nameserver_pick (nameserver_failed s (some i)).servers
      (nameserver_failed s (some i)).good).1).map Nameserver.nsid

/-- What claim C7 (as amended) asserts about `reply_handle` on a
ServFail/NotImpl/Refused reply for request `req` homed on server `i`:
while the reissue budget lasts the server is marked failed and the request
is either reissued silently (pick found a different server) or the error is
surfaced; with the budget exhausted the server is left up and the error is
surfaced. -/
def c7_conclusion (s : DnsState) (req : Request) (i : Nat) (flags : Nat) : Prop :=
  ((req.reissueCount : Int) < s.maxReissues →
     (∀ n ∈ (reply_handle s req flags 0 none).servers, n.nsid = i → n.state = false) ∧
     (c7_pick_after_fail s i ≠ some i →
        (reply_handle s req flags 0 none).callbacks = s.callbacks ∧
        req.reqId ∈ (reply_handle s req flags 0 none).reqHead.map Request.reqId ∧
        (∀ r ∈ (reply_handle s req flags 0 none).reqHead, r.reqId = req.reqId →
           r.reissueCount = req.reissueCount + 1 ∧ r.txCount = 0 ∧
           r.transmitMe = true ∧ r.ns = c7_pick_after_fail s i)) ∧
     (c7_pick_after_fail s i = some i →
        (reply_handle s req flags 0 none).callbacks
          = s.callbacks ++ [(req.cbId, error_code_of_flags flags)] ∧
        req.reqId ∉ (reply_handle s req flags 0 none).reqHead.map Request.reqId)) ∧
  (s.maxReissues ≤ (req.reissueCount : Int) →
     (∀ n ∈ (reply_handle s req flags 0 none).servers, n.nsid = i → n.state = true) ∧
     (reply_handle s req flags 0 none).callbacks
       = s.callbacks ++ [(req.cbId, error_code_of_flags flags)] ∧
     req.reqId ∉ (reply_handle s req flags 0 none).reqHead.map Request.reqId)

/-- What claim C8 asserts about the timeout callback for request `req`
homed on server `i` whose pre-state is `ns`: the consecutive-timeout
counter is incremented (reset once it exceeds the maximum, in which case
the server is marked failed), and the request either fails with a single
TIMEOUT callback or is retransmitted. -/
def c8_conclusion (s : DnsState) (req : Request) (i : Nat) (ns : Nameserver) : Prop :=
  (∀ n ∈ (evdns_request_timeout_callback s req.reqId).servers, n.nsid = i →
     n.timedout = (if s.maxNsTimeout < ((ns.timedout : Int) + 1) then 0
                   else ns.timedout + 1)) ∧
  (s.maxNsTimeout < ((ns.timedout : Int) + 1) →
     ∀ n ∈ (evdns_request_timeout_callback s req.reqId).servers, n.nsid = i →
       n.state = false) ∧
  (s.maxRetransmits ≤ (req.txCount : Int) →
     (evdns_request_timeout_callback s req.reqId).callbacks
       = s.callbacks ++ [(req.cbId, DNS_ERR_TIMEOUT)] ∧
     req.reqId ∉ (evdns_request_timeout_callback s req.reqId).reqHead.map
       Request.reqId) ∧
  ((req.txCount : Int) < s.maxRetransmits →
     (evdns_request_timeout_callback s req.reqId).callbacks = s.callbacks ∧
     (ns.choaked = false →
        (evdns_request_timeout_callback s req.reqId).transmits
          = s.transmits ++ [req.reqId]))

/-! # Theorems -/

/-! ## Generic helper lemmas -/

theorem foldl_cons_reverse {α β : Type} (f : α → β) :
    ∀ (l : List α) (init : List β),
      l.foldl (fun acc r => f r :: acc) init = (l.map f).reverse ++ init := by
  intro l
  induction l with
  | nil => intro init; simp
  | cons a t ih =>
    intro init
    simp only [List.foldl_cons, List.map_cons, List.reverse_cons, ih]
    simp

/-! ## C3: the name decoder does not terminate on a pointer loop -/

theorem name_parse_go_c3_loop (outLen : Nat) :
    ∀ fuel : Nat, name_parse_go [0xc0, 0x00] outLen fuel 0 (some 2) [] = none := by
  intro fuel
  induction fuel with
  | zero => rfl
  | succ f ih =>
    simp only [name_parse_go]
    norm_num
    exact ih

/-- Claim C3 (code_bug evidence): on the two-byte packet `c0 00` — a
compression pointer whose 14-bit target is offset 0, i.e. the pointer
itself — `name_parse` never returns, whatever output-buffer size the
caller supplies: for every fuel bound the fueled decoder is still running.
The offset is in range and no label is ever copied, so none of the decoder's
error checks can fire; the C loop re-enters the same state forever.  The
claim's required behaviour (terminate with an error on any pointer chain
that creates a decode loop) therefore fails. -/
theorem c3_name_parse_pointer_loop_diverges :
    ∀ (fuel outLen : Nat), name_parse [0xc0, 0x00] 0 outLen fuel = none := by
  intro fuel outLen
  cases fuel with
  | zero => rfl
  | succ f =>
    show name_parse_go [0xc0, 0x00] outLen (f + 1) 0 none [] = none
    simp only [name_parse_go]
    norm_num
    exact name_parse_go_c3_loop outLen f

/-! ## C9: the inflight-uniqueness scan misses a collision at the head -/

/-- The state of the C9 failing input: one inflight request whose
transaction id 5 heads the inflight list, and entropy that produces 5. -/
def c9State : DnsState :=
  { initState with reqHead := [headCollisionReq], inflight := 1,
                   entropy := [5] }

/-- Claim C9 (code_bug evidence): `transaction_id_pick` returns 5 although
the inflight request at the head of the list already carries transaction
id 5 — the do-while scan breaks at the head with `req == started_at` still
true, so the collision is accepted.  (The candidate is not 0xffff, so the
sentinel rejection is not at issue.) -/
theorem c9_trans_id_pick_head_collision :
    (transaction_id_pick c9State).1 = 5 ∧
      5 ∈ c9State.reqHead.map Request.transId ∧
      (transaction_id_pick c9State).1 ≠ 0xffff := by
  refine ⟨by decide, by decide, by decide⟩

/-! ## C2: open failure installs defaults but returns 0 -/

/-- Claim C2 (code_bug evidence): evaluating `evdns_resolv_conf_parse` with
`DNS_OPTIONS_ALL` on a file that cannot be opened.  The defaults are
installed exactly as the claim describes — the loopback nameserver
127.0.0.1 and the hostname-derived suffix `example.com` — but the function
returns 0, not the documented 1. -/
theorem c2_resolv_conf_open_fail_eval :
    (evdns_resolv_conf_parse c2State DNS_OPTIONS_ALL ResolvFile.openFail).1 = 0 ∧
    (evdns_resolv_conf_parse c2State DNS_OPTIONS_ALL ResolvFile.openFail).1 ≠ 1 ∧
    ((evdns_resolv_conf_parse c2State DNS_OPTIONS_ALL
        ResolvFile.openFail).2.servers.map Nameserver.address) = [0x7f000001] ∧
    (evdns_resolv_conf_parse c2State DNS_OPTIONS_ALL ResolvFile.openFail).2.searchCfg
      = some { ndots := 1, domains := ["example.com"] } := by
  refine ⟨by decide, by decide, by decide, by decide⟩

/-! ## C1: clear-and-suspend reverses the inflight order -/

/-- Claim C1 counterexample: in the claim's own scenario — inflight
`[a, b]` (ids 0, 1), waiting `[c, d]` (ids 2, 3), clear-and-suspend, a
fresh nameserver, resume — the transmission order is `b, a, c, d`
(`[1, 0, 2, 3]`), not the claimed `a, b, c, d`. -/
theorem c1_suspend_resume_order_cex :
    suspendResumeRun.transmits = [1, 0, 2, 3] ∧
      suspendResumeRun.transmits ≠ [0, 1, 2, 3] := by
  refine ⟨by decide, by decide⟩

/-- Claim C1 as amended: clear-and-suspend splices the previously-inflight
requests in front of the previously-waiting ones, but in *reversed*
relative order — the waiting list afterwards is the reversed (reset)
inflight list followed by the old waiting list; concretely, the resume
transmission order for the scenario is `b, a, c, d`. -/
theorem c1_suspend_resume_order_amended :
    (∀ s : DnsState, s.servers ≠ [] →
      (evdns_clear_nameservers_and_suspend s).reqWaitingHead
        = (s.reqHead.map suspend_request).reverse ++ s.reqWaitingHead) ∧
    suspendResumeRun.transmits = [1, 0, 2, 3] := by
  constructor
  · intro s hs
    have hne : s.servers.isEmpty = false := by
      cases h : s.servers with
      | nil => exact absurd h hs
      | cons a t => rfl
    simp only [evdns_clear_nameservers_and_suspend, hne, Bool.false_eq_true,
      if_false, foldl_cons_reverse]
  · decide

theorem c1_suspend_resume_order_witness :
    (evdns_clear_nameservers_and_suspend suspendScenario).reqWaitingHead
      = (suspendScenario.reqHead.map suspend_request).reverse
          ++ suspendScenario.reqWaitingHead :=
  c1_suspend_resume_order_amended.1 suspendScenario (by decide)

/-! ## C5: suspended requests get trans-id 0, not the 0xffff sentinel -/

/-- Claim C5 counterexample: after clear-and-suspend on the scenario state,
the formerly-inflight requests sit on the waiting list with transaction
id 0 — not the sentinel 0xffff the claim requires (the two previously
waiting requests keep their sentinel). -/
theorem c5_suspend_sentinel_cex :
    ((evdns_clear_nameservers_and_suspend suspendScenario).reqWaitingHead.map
        Request.transId) = [0, 0, 0xffff, 0xffff] ∧
      (0 : Nat) ≠ 0xffff := by
  refine ⟨by decide, by decide⟩

/-- Claim C5 as amended: requests that `request_new` parks on the waiting
list (no capacity) do carry the sentinel 0xffff and a null nameserver, but
`evdns_clear_nameservers_and_suspend` resets each formerly-inflight
request's trans-id to 0 — not to the sentinel — while detaching its
nameserver. -/
theorem c5_suspend_sentinel_amended :
    (∀ s : DnsState, s.servers ≠ [] →
      ∀ r ∈ (evdns_clear_nameservers_and_suspend s).reqWaitingHead.take
              s.reqHead.length, r.transId = 0 ∧ r.ns = none) ∧
    (∀ (s : DnsState) (rtype : Nat) (name : String) (cb : Nat)
        (req : Request) (s1 : DnsState), s.cap ≤ s.inflight →
      request_new s rtype name cb = (some req, s1) →
      req.transId = 0xffff ∧ req.ns = none) := by
  constructor
  · intro s hs r hr
    have hne : s.servers.isEmpty = false := by
      cases h : s.servers with
      | nil => exact absurd h hs
      | cons a t => rfl
    simp only [evdns_clear_nameservers_and_suspend, hne, Bool.false_eq_true,
      if_false, foldl_cons_reverse] at hr
    have hlen : ((s.reqHead.map suspend_request).reverse).length
        = s.reqHead.length := by simp
    rw [← hlen, List.take_left] at hr
    rw [List.mem_reverse, List.mem_map] at hr
    obtain ⟨a, _, rfl⟩ := hr
    exact ⟨rfl, rfl⟩
  · intro s rtype name cb req s1 hcap hnew
    have hnot : ¬ (s.inflight < s.cap) := by omega
    cases hb : data_build_ok name with
    | false =>
      simp only [request_new, if_neg hnot, if_pos hb] at hnew
      simp at hnew
    | true =>
      have hbb : ¬ (data_build_ok name = false) := by simp [hb]
      simp only [request_new, if_neg hnot, if_neg hbb] at hnew
      rw [Prod.mk.injEq] at hnew
      obtain ⟨h1, -⟩ := hnew
      simp only [Option.some.injEq] at h1
      rw [← h1]
      exact ⟨rfl, rfl⟩

theorem c5_suspend_sentinel_witness :
    (suspend_request (mkInflightReq 0 10 0)).transId = 0 ∧
      (suspend_request (mkInflightReq 0 10 0)).ns = none :=
  c5_suspend_sentinel_amended.1 suspendScenario (by decide)
    (suspend_request (mkInflightReq 0 10 0)) (by decide)

/-! ## C10: a reply with an unknown transaction id changes nothing -/

/-- Claim C10: when an inbound reply's 12-byte header carries a transaction
id that matches no inflight request, `reply_parse` returns −1 with the
state — both queues, every counter, every nameserver, and both the
transmit and callback traces — exactly as it was. -/
theorem c10_stray_reply_no_state_change :
    ∀ (packet : List Nat) (fuelNp : Nat) (s : DnsState),
      12 ≤ packet.length →
      (packet.getD 0 0) * 256 + packet.getD 1 0 ∉ s.reqHead.map Request.transId →
      reply_parse packet fuelNp s = some (-1, s) := by
  intro packet fuelNp s hlen hid
  have h0 : get16 packet 0 = some ((packet.getD 0 0) * 256 + packet.getD 1 0, 2) := by
    simp only [get16, if_pos (by omega : 0 + 2 ≤ packet.length)]
  have h2 : get16 packet 2 = some ((packet.getD 2 0) * 256 + packet.getD 3 0, 4) := by
    simp only [get16, if_pos (by omega : 2 + 2 ≤ packet.length)]
  have h4 : get16 packet 4 = some ((packet.getD 4 0) * 256 + packet.getD 5 0, 6) := by
    simp only [get16, if_pos (by omega : 4 + 2 ≤ packet.length)]
  have h6 : get16 packet 6 = some ((packet.getD 6 0) * 256 + packet.getD 7 0, 8) := by
    simp only [get16, if_pos (by omega : 6 + 2 ≤ packet.length)]
  have h8 : get16 packet 8 = some ((packet.getD 8 0) * 256 + packet.getD 9 0, 10) := by
    simp only [get16, if_pos (by omega : 8 + 2 ≤ packet.length)]
  have h10 : get16 packet 10 =
      some ((packet.getD 10 0) * 256 + packet.getD 11 0, 12) := by
    simp only [get16, if_pos (by omega : 10 + 2 ≤ packet.length)]
  have hfind : request_find_from_trans_id s
      ((packet.getD 0 0) * 256 + packet.getD 1 0) = none := by
    simp only [request_find_from_trans_id]
    rw [List.find?_eq_none]
    intro r hr
    simp only [decide_eq_true_eq]
    intro hEq
    exact hid (List.mem_map.mpr ⟨r, hr, hEq⟩)
  simp only [reply_parse, h0, h2, h4, h6, h8, h10, hfind]

theorem c10_stray_reply_witness :
    reply_parse strayHeaderPacket 20 servfailScenario
      = some (-1, servfailScenario) :=
  c10_stray_reply_no_state_change strayHeaderPacket 20 servfailScenario
    (by decide) (by decide)

/-! ## C6: search attempt order -/

theorem search_make_new_spec (cfg : SearchCfg) (n : Nat) (base : String) :
    search_make_new cfg n base = (cfg.domains[n]?).map (appended_name base) := by
  cases h : cfg.domains[n]? with
  | none => simp [search_make_new, h]
  | some dom => simp [search_make_new, appended_name, h]

theorem search_attempts_go_spec (cfg : SearchCfg) (orig : String) :
    ∀ (m k : Nat), cfg.domains.length = k + m → ∀ fuel, m + 1 ≤ fuel →
      search_attempts_go cfg orig ((k : Int) - 1) fuel =
        (cfg.domains.drop k).map (appended_name orig) ++
          (if (string_num_dots orig : Int) < cfg.ndots then [orig] else []) := by
  intro m
  induction m with
  | zero =>
    intro k hk fuel hfuel
    obtain ⟨f, rfl⟩ : ∃ f, fuel = f + 1 := ⟨fuel - 1, by omega⟩
    have hidx : ((k : Int) - 1) + 1 ≥ (cfg.domains.length : Int) := by
      rw [hk]; push_cast; omega
    simp only [search_attempts_go, if_pos hidx]
    rw [List.drop_of_length_le (by omega), List.map_nil, List.nil_append]
  | succ m ih =>
    intro k hk fuel hfuel
    obtain ⟨f, rfl⟩ : ∃ f, fuel = f + 1 := ⟨fuel - 1, by omega⟩
    have hidx : ¬ (((k : Int) - 1) + 1 ≥ (cfg.domains.length : Int)) := by
      rw [hk]; push_cast; omega
    have hklt : k < cfg.domains.length := by omega
    simp only [search_attempts_go, if_neg hidx, search_make_new_spec]
    have hget : cfg.domains[k]? = some (cfg.domains.get ⟨k, hklt⟩) :=
      List.getElem?_eq_getElem hklt
    have hcast : ((k : Int) - 1 + 1).toNat = k := by omega
    rw [hcast, hget]
    simp only [Option.map_some']
    have hdrop : cfg.domains.drop k
        = cfg.domains.get ⟨k, hklt⟩ :: cfg.domains.drop (k + 1) :=
      List.drop_eq_getElem_cons hklt
    rw [hdrop]
    simp only [List.map_cons, List.cons_append, List.cons.injEq, true_and]
    have : ((k : Int) - 1) + 1 = ((k + 1 : Nat) : Int) - 1 := by push_cast; omega
    rw [this]
    exact ih (k + 1) (by omega) f (by omega)

/-- Claim C6: with searching enabled and a non-empty suffix list, a name
with at least `ndots` dots is tried bare first then with each suffix in
list order; a name with fewer than `ndots` dots is tried with each suffix
in list order first and bare last.  Concretely, with `ndots = 2` and
suffixes `["corp.example", "example.com"]`, the query `"www"` is attempted
as `www.corp.example`, then `www.example.com`, then bare `www`. -/
theorem c6_search_attempt_order :
    (∀ (cfg : SearchCfg) (name : String), cfg.domains ≠ [] →
      search_attempts cfg name =
        if (string_num_dots name : Int) ≥ cfg.ndots
        then name :: cfg.domains.map (appended_name name)
        else cfg.domains.map (appended_name name) ++ [name]) ∧
    search_attempts c6Cfg "www"
      = ["www.corp.example", "www.example.com", "www"] := by
  constructor
  · intro cfg name hne
    have hlen : cfg.domains.length ≠ 0 := by
      simpa [List.length_eq_zero] using hne
    by_cases hd : (string_num_dots name : Int) ≥ cfg.ndots
    · rw [if_pos hd]
      simp only [search_attempts, if_neg hlen, if_pos hd]
      have h := search_attempts_go_spec cfg name cfg.domains.length 0
        (by omega) (cfg.domains.length + 1) (by omega)
      norm_num [List.drop_zero] at h
      rw [h, if_neg (by omega), List.append_nil]
    · rw [if_neg hd]
      simp only [search_attempts, if_neg hlen, if_neg hd, search_make_new_spec]
      obtain ⟨d0, rest, hds⟩ : ∃ d0 rest, cfg.domains = d0 :: rest := by
        cases h : cfg.domains with
        | nil => exact absurd h hne
        | cons a t => exact ⟨a, t, rfl⟩
      have hget : cfg.domains[0]? = some d0 := by simp [hds]
      rw [hget]
      simp only [Option.map_some']
      have h := search_attempts_go_spec cfg name (cfg.domains.length - 1) 1
        (by omega) (cfg.domains.length + 1) (by omega)
      norm_num at h
      rw [h, if_pos (by omega)]
      rw [hds]
      simp
  · decide

theorem c6_search_attempt_order_witness :
    search_attempts c6Cfg "www" =
      if (string_num_dots "www" : Int) ≥ c6Cfg.ndots
      then "www" :: c6Cfg.domains.map (appended_name "www")
      else c6Cfg.domains.map (appended_name "www") ++ ["www"] :=
  c6_search_attempt_order.1 c6Cfg "www" (by decide)

/-! ## State-shape helper lemmas -/

theorem evdns_request_transmit_fst_reqId (r : Request) (s : DnsState) :
    (evdns_request_transmit r s).1.reqId = r.reqId := by
  simp only [evdns_request_transmit]
  split <;> rfl

theorem evdns_request_transmit_state (r : Request) (s : DnsState) :
    ∃ t, (evdns_request_transmit r s).2 = { s with transmits := t } := by
  simp only [evdns_request_transmit]
  split
  · exact ⟨_, rfl⟩
  · exact ⟨s.transmits, rfl⟩

theorem transaction_id_pick_state (s : DnsState) :
    ∃ e, (transaction_id_pick s).2 = { s with entropy := e } := by
  simp only [transaction_id_pick]
  split
  · exact ⟨_, rfl⟩
  · exact ⟨[], rfl⟩

theorem evdns_transmit_go_state (l : List Request) :
    ∀ s : DnsState, ∃ t, (evdns_transmit_go l s).2 = { s with transmits := t } := by
  induction l with
  | nil => intro s; exact ⟨s.transmits, rfl⟩
  | cons r rest ih =>
    intro s
    simp only [evdns_transmit_go]
    split
    · obtain ⟨t1, h1⟩ := evdns_request_transmit_state r s
      obtain ⟨t2, h2⟩ := ih (evdns_request_transmit r s).2
      exact ⟨t2, by rw [h2, h1]⟩
    · exact ih s

theorem evdns_transmit_go_ids (l : List Request) :
    ∀ s : DnsState, (evdns_transmit_go l s).1.map Request.reqId
      = l.map Request.reqId := by
  induction l with
  | nil => intro s; rfl
  | cons r rest ih =>
    intro s
    simp only [evdns_transmit_go]
    split
    · simp only [List.map_cons, evdns_request_transmit_fst_reqId, ih]
    · simp only [List.map_cons, ih]

theorem evdns_transmit_state (s : DnsState) :
    ∃ l t, evdns_transmit s = { s with reqHead := l, transmits := t } ∧
      l.map Request.reqId = s.reqHead.map Request.reqId := by
  obtain ⟨t, h⟩ := evdns_transmit_go_state s.reqHead s
  refine ⟨(evdns_transmit_go s.reqHead s).1, t, ?_, evdns_transmit_go_ids _ _⟩
  simp only [evdns_transmit]
  rw [h]

/-! ## Permutation lemmas for the nameserver ring -/

theorem rotate1_perm (l : List Nameserver) : List.Perm (rotate1 l) l := by
  cases l with
  | nil => exact List.Perm.refl _
  | cons x xs => exact (List.perm_append_singleton x xs)

theorem nameserver_pick_go_perm :
    ∀ (fuel : Nat) (l : List Nameserver),
      List.Perm (nameserver_pick_go fuel l).2 l := by
  intro fuel
  induction fuel with
  | zero =>
    intro l
    cases l with
    | nil => exact List.Perm.refl _
    | cons h t => exact List.Perm.refl _
  | succ f ih =>
    intro l
    cases l with
    | nil => exact List.Perm.refl _
    | cons h t =>
      simp only [nameserver_pick_go]
      split
      · simpa using rotate1_perm (h :: t)
      · split
        · simpa using ((rotate1_perm (rotate1 (h :: t))).trans
            (rotate1_perm (h :: t)))
        · simpa using ((ih (rotate1 (h :: t))).trans (rotate1_perm (h :: t)))

theorem nameserver_pick_perm (srv : List Nameserver) (good : Int) :
    List.Perm (nameserver_pick srv good).2 srv := by
  cases srv with
  | nil => simpa [nameserver_pick] using List.Perm.refl ([] : List Nameserver)
  | cons h t =>
    simp only [nameserver_pick]
    split
    · simpa using rotate1_perm (h :: t)
    · simpa using nameserver_pick_go_perm (h :: t).length (h :: t)

theorem rehome_go_servers_perm (i : Nat) :
    ∀ (l : List Request) (srv : List Nameserver) (good : Int),
      List.Perm (rehome_go i l srv good).2 srv := by
  intro l
  induction l with
  | nil => intro srv good; exact List.Perm.refl _
  | cons r rest ih =>
    intro srv good
    simp only [rehome_go]
    split
    · simpa using (ih (nameserver_pick srv good).2 good).trans
        (nameserver_pick_perm srv good)
    · simpa using ih srv good

theorem rehome_go_ids (i : Nat) :
    ∀ (l : List Request) (srv : List Nameserver) (good : Int),
      (rehome_go i l srv good).1.map Request.reqId = l.map Request.reqId := by
  intro l
  induction l with
  | nil => intro srv good; rfl
  | cons r rest ih =>
    intro srv good
    simp only [rehome_go]
    split
    · simp [ih]
    · simp [ih]

/-! ## find? helper lemmas -/

theorem mem_updateNs {srv : List Nameserver} {i : Nat}
    {f : Nameserver → Nameserver} {x : Nameserver} (h : x ∈ updateNs srv i f) :
    ∃ n ∈ srv, x = if n.nsid = i then f n else n := by
  obtain ⟨n, hn, hx⟩ := List.mem_map.mp h
  exact ⟨n, hn, hx.symm⟩

theorem updateNs_ids (srv : List Nameserver) (i : Nat)
    (f : Nameserver → Nameserver) (hpres : ∀ n, (f n).nsid = n.nsid) :
    (updateNs srv i f).map Nameserver.nsid = srv.map Nameserver.nsid := by
  unfold updateNs
  rw [List.map_map]
  apply List.map_congr_left
  intro n _
  by_cases hn : n.nsid = i
  · simp [hn, hpres]
  · simp [hn]

theorem find_key_unique {α : Type} (key : α → Nat) :
    ∀ (l : List α) (i : Nat) (x : α), (l.map key).Nodup →
      l.find? (fun a => key a = i) = some x → ∀ a ∈ l, key a = i → a = x := by
  intro l
  induction l with
  | nil => intro i x _ hf; simp at hf
  | cons h t ih =>
    intro i x hnd hf a ha hk
    rw [List.map_cons, List.nodup_cons] at hnd
    by_cases hh : key h = i
    · rw [List.find?_cons_of_pos _ (by simpa using hh)] at hf
      cases hf
      rcases List.mem_cons.mp ha with rfl | hat
      · rfl
      · exact absurd (hh ▸ hk ▸ List.mem_map_of_mem key hat) hnd.1
    · rw [List.find?_cons_of_neg _ (by simpa using hh)] at hf
      rcases List.mem_cons.mp ha with rfl | hat
      · exact absurd hk hh
      · exact ih i x hnd.2 hf a hat hk

theorem find_key_exists {α : Type} (key : α → Nat) (l : List α) (i : Nat)
    (x : α) (hx : x ∈ l) (hk : key x = i) :
    ∃ y, l.find? (fun a => key a = i) = some y ∧ y ∈ l ∧ key y = i := by
  cases hf : l.find? (fun a => key a = i) with
  | none =>
    rw [List.find?_eq_none] at hf
    exact absurd (by simpa using hk) (hf x hx)
  | some y =>
    exact ⟨y, rfl, List.mem_of_find?_eq_some hf,
      by simpa using List.find?_some hf⟩

theorem findNs_updateNs (srv : List Nameserver) (i : Nat)
    (f : Nameserver → Nameserver) (hpres : ∀ n, (f n).nsid = n.nsid) :
    findNs (updateNs srv i f) i = (findNs srv i).map f := by
  induction srv with
  | nil => rfl
  | cons h t ih =>
    by_cases hh : h.nsid = i
    · simp only [findNs, updateNs, List.map_cons, if_pos hh]
      rw [List.find?_cons_of_pos _ (by simpa using (hpres h).trans hh),
        List.find?_cons_of_pos _ (by simpa using hh)]
      rfl
    · simp only [findNs, updateNs, List.map_cons, if_neg hh]
      rw [List.find?_cons_of_neg _ (by simpa using hh),
        List.find?_cons_of_neg _ (by simpa using hh)]
      exact ih

/-! ## Pump lemmas -/

theorem pump_step_facts (s : DnsState) (req : Request) (rest : List Request) :
    (pump_step s req rest).cap = s.cap ∧
    (pump_step s req rest).callbacks = s.callbacks ∧
    (pump_step s req rest).inflight = s.inflight + 1 ∧
    (pump_step s req rest).reqWaitingHead = rest ∧
    (pump_step s req rest).reqHead.map Request.reqId
      = s.reqHead.map Request.reqId ++ [req.reqId] ∧
    List.Perm (pump_step s req rest).servers s.servers := by
  simp only [pump_step]
  obtain ⟨e, he⟩ := transaction_id_pick_state
    { s with reqWaitingHead := rest, waiting := s.waiting - 1,
             inflight := s.inflight + 1,
             servers := (nameserver_pick s.servers s.good).2 }
  rw [he]
  obtain ⟨t, ht⟩ := evdns_request_transmit_state
    (request_trans_id_set
      { req with ns := (((nameserver_pick s.servers s.good).1).map (fun n => n.nsid)) }
      (transaction_id_pick
        { s with reqWaitingHead := rest, waiting := s.waiting - 1,
                 inflight := s.inflight + 1,
                 servers := (nameserver_pick s.servers s.good).2 }).1)
    { s with reqWaitingHead := rest, waiting := s.waiting - 1,
             inflight := s.inflight + 1,
             servers := (nameserver_pick s.servers s.good).2, entropy := e }
  rw [ht]
  obtain ⟨l2, t2, h2, hids⟩ := evdns_transmit_state
    { s with reqWaitingHead := rest, waiting := s.waiting - 1,
             inflight := s.inflight + 1,
             servers := (nameserver_pick s.servers s.good).2, entropy := e,
             transmits := t,
             reqHead := (evdns_request_insert
               (evdns_request_transmit
                 (request_trans_id_set
                   { req with ns := (((nameserver_pick s.servers s.good).1).map (fun n => n.nsid)) }
                   (transaction_id_pick
                     { s with reqWaitingHead := rest, waiting := s.waiting - 1,
                              inflight := s.inflight + 1,
                              servers := (nameserver_pick s.servers s.good).2 }).1)
                 { s with reqWaitingHead := rest, waiting := s.waiting - 1,
                          inflight := s.inflight + 1,
                          servers := (nameserver_pick s.servers s.good).2,
                          entropy := e }).1
               s.reqHead) }
  rw [h2]
  refine ⟨rfl, rfl, rfl, rfl, ?_, ?_⟩
  · rw [hids]
    simp [evdns_request_insert, evdns_request_transmit_fst_reqId,
      request_trans_id_set]
  · exact nameserver_pick_perm s.servers s.good

theorem pumpLoop_cap : ∀ (fuel : Nat) (s : DnsState),
    (pumpLoop fuel s).cap = s.cap := by
  intro fuel
  induction fuel with
  | zero => intro s; rfl
  | succ f ih =>
    intro s
    simp only [pumpLoop]
    split
    · cases hw : s.reqWaitingHead with
      | nil => rfl
      | cons req rest =>
        rw [ih (pump_step s req rest), (pump_step_facts s req rest).1]
    · rfl

theorem pumpLoop_callbacks : ∀ (fuel : Nat) (s : DnsState),
    (pumpLoop fuel s).callbacks = s.callbacks := by
  intro fuel
  induction fuel with
  | zero => intro s; rfl
  | succ f ih =>
    intro s
    simp only [pumpLoop]
    split
    · cases hw : s.reqWaitingHead with
      | nil => rfl
      | cons req rest =>
        rw [ih (pump_step s req rest), (pump_step_facts s req rest).2.1]
    · rfl

theorem pumpLoop_inflight_le : ∀ (fuel : Nat) (s : DnsState),
    s.inflight ≤ s.cap → (pumpLoop fuel s).inflight ≤ s.cap := by
  intro fuel
  induction fuel with
  | zero => intro s h; exact h
  | succ f ih =>
    intro s h
    simp only [pumpLoop]
    split
    · rename_i hcond
      cases hw : s.reqWaitingHead with
      | nil => exact h
      | cons req rest =>
        have hfacts := pump_step_facts s req rest
        have hle : (pump_step s req rest).inflight ≤ (pump_step s req rest).cap := by
          rw [hfacts.1, hfacts.2.2.1]
          omega
        have := ih (pump_step s req rest) hle
        rw [hfacts.1] at this
        exact this
    · exact h

theorem pumpLoop_servers_perm : ∀ (fuel : Nat) (s : DnsState),
    List.Perm (pumpLoop fuel s).servers s.servers := by
  intro fuel
  induction fuel with
  | zero => intro s; exact List.Perm.refl _
  | succ f ih =>
    intro s
    simp only [pumpLoop]
    split
    · cases hw : s.reqWaitingHead with
      | nil => exact List.Perm.refl _
      | cons req rest =>
        exact (ih (pump_step s req rest)).trans
          (pump_step_facts s req rest).2.2.2.2.2
    · exact List.Perm.refl _

theorem pumpLoop_ids : ∀ (fuel : Nat) (s : DnsState) (x : Nat),
    x ∈ (pumpLoop fuel s).reqHead.map Request.reqId →
      x ∈ s.reqHead.map Request.reqId ∨
        x ∈ s.reqWaitingHead.map Request.reqId := by
  intro fuel
  induction fuel with
  | zero => intro s x h; exact Or.inl h
  | succ f ih =>
    intro s x h
    rw [pumpLoop] at h
    by_cases hcond : s.inflight < s.cap ∧ s.waiting ≠ 0
    · rw [if_pos hcond] at h
      cases hw : s.reqWaitingHead with
      | nil => rw [hw] at h; exact Or.inl h
      | cons req rest =>
        rw [hw] at h
        dsimp only at h
        have hfacts := pump_step_facts s req rest
        rcases ih (pump_step s req rest) x h with h1 | h1
        · rw [hfacts.2.2.2.2.1] at h1
          rcases List.mem_append.mp h1 with h2 | h2
          · exact Or.inl h2
          · have hx : x = req.reqId := by simpa using h2
            right
            rw [List.map_cons]
            exact hx ▸ List.mem_cons_self _ _
        · right
          rw [hfacts.2.2.2.1] at h1
          rw [List.map_cons]
          exact List.mem_cons_of_mem _ h1
    · rw [if_neg hcond] at h
      exact Or.inl h

/-! ## request_finished lemmas -/

theorem request_finished_callbacks (s : DnsState) (i : Nat) :
    (request_finished s i).callbacks = s.callbacks := by
  unfold request_finished evdns_requests_pump_waiting_queue
  exact pumpLoop_callbacks _ _

theorem request_finished_servers_perm (s : DnsState) (i : Nat) :
    List.Perm (request_finished s i).servers s.servers := by
  unfold request_finished evdns_requests_pump_waiting_queue
  exact pumpLoop_servers_perm _ _

theorem request_finished_ids (s : DnsState) (i : Nat)
    (hw : i ∉ s.reqWaitingHead.map Request.reqId) :
    i ∉ (request_finished s i).reqHead.map Request.reqId := by
  unfold request_finished evdns_requests_pump_waiting_queue
  intro hmem
  rcases pumpLoop_ids _ _ _ hmem with h | h
  · obtain ⟨r, hr, hid⟩ := List.mem_map.mp h
    have := List.of_mem_filter hr
    simp only [decide_eq_true_eq] at this
    exact this hid
  · exact hw h

/-! ## request_new / request_submit lemmas -/

theorem request_new_state (s : DnsState) (rtype : Nat) (name : String) (cb : Nat) :
    ((request_new s rtype name cb).2.inflight = s.inflight ∧
     (request_new s rtype name cb).2.cap = s.cap) ∧
    (∀ req, (request_new s rtype name cb).1 = some req →
       req.ns ≠ none → s.inflight < s.cap) := by
  by_cases hc : s.inflight < s.cap
  · obtain ⟨e, he⟩ := transaction_id_pick_state s
    refine ⟨⟨?_, ?_⟩, fun req _ _ => hc⟩ <;>
    · simp only [request_new, if_pos hc, he]
      split <;> rfl
  · refine ⟨⟨?_, ?_⟩, ?_⟩
    · simp only [request_new, if_neg hc]
      split <;> rfl
    · simp only [request_new, if_neg hc]
      split <;> rfl
    · intro req hreq hns
      exfalso
      apply hns
      simp only [request_new, if_neg hc] at hreq
      split at hreq
      · simp at hreq
      · dsimp only at hreq
        simp only [Option.some.injEq] at hreq
        rw [← hreq]
        rfl

theorem request_submit_state (req : Request) (s : DnsState) :
    (request_submit req s).inflight
        = (if req.ns.isSome then s.inflight + 1 else s.inflight) ∧
    (request_submit req s).cap = s.cap := by
  cases hns : req.ns with
  | none => simp [request_submit, hns]
  | some i =>
    obtain ⟨t, ht⟩ := evdns_request_transmit_state req
      { s with inflight := s.inflight + 1 }
    simp [request_submit, hns, ht]

theorem submit_after_new_le (s : DnsState) (rtype : Nat) (name : String)
    (cb : Nat) (g : Request → Request) (hg : ∀ r, (g r).ns = r.ns)
    (hle : s.inflight ≤ s.cap) :
    ∀ req, (request_new s rtype name cb).1 = some req →
      (request_submit (g req) (request_new s rtype name cb).2).inflight
        ≤ (request_submit (g req) (request_new s rtype name cb).2).cap := by
  intro req hreq
  obtain ⟨⟨hinf, hcap⟩, hns⟩ := request_new_state s rtype name cb
  obtain ⟨hsubinf, hsubcap⟩ :=
    request_submit_state (g req) (request_new s rtype name cb).2
  rw [hsubinf, hsubcap, hinf, hcap]
  by_cases h : (g req).ns.isSome
  · rw [if_pos h]
    have hne : req.ns ≠ none := by
      rw [← hg req]
      exact Option.isSome_iff_ne_none.mp h
    have := hns req hreq hne
    omega
  · rw [if_neg h]
    exact hle

/-! ## C4: the inflight cap — preserved by pump and resolve, bypassed by probes -/

theorem resolve_preserves_cap (s : DnsState) (name : String) (flags cb : Nat)
    (hle : s.inflight ≤ s.cap) :
    (evdns_resolve_ipv4 s name flags cb).2.inflight
      ≤ (evdns_resolve_ipv4 s name flags cb).2.cap := by
  have hnone : ∀ (rtype : Nat) (nm : String) (o : Option Request) (s1 : DnsState),
      request_new s rtype nm cb = (o, s1) → s1.inflight ≤ s1.cap := by
    intro rtype nm o s1 hrn
    have h2 : (request_new s rtype nm cb).2 = s1 := by rw [hrn]
    obtain ⟨⟨hinf, hcap⟩, -⟩ := request_new_state s rtype nm cb
    rw [h2] at hinf hcap
    omega
  have hsome : ∀ (rtype : Nat) (nm : String) (g : Request → Request),
      (∀ r, (g r).ns = r.ns) → ∀ (req : Request) (s1 : DnsState),
      request_new s rtype nm cb = (some req, s1) →
      (request_submit (g req) s1).inflight ≤ (request_submit (g req) s1).cap := by
    intro rtype nm g hg req s1 hrn
    have h1 : (request_new s rtype nm cb).1 = some req := by rw [hrn]
    have h2 : (request_new s rtype nm cb).2 = s1 := by rw [hrn]
    have h := submit_after_new_le s rtype nm cb g hg hle req h1
    rw [h2] at h
    exact h
  unfold evdns_resolve_ipv4
  by_cases hf : flags &&& DNS_QUERY_NO_SEARCH ≠ 0
  · rw [if_pos hf]
    cases hrn : request_new s TYPE_A name cb with
    | mk o s1 =>
      cases o with
      | none => exact hnone TYPE_A name none s1 hrn
      | some req => exact hsome TYPE_A name id (fun r => rfl) req s1 hrn
  · rw [if_neg hf]
    unfold search_request_new
    cases hcfg : s.searchCfg with
    | none =>
      cases hrn : request_new s TYPE_A name cb with
      | mk o s1 =>
        cases o with
        | none => exact hnone TYPE_A name none s1 hrn
        | some req => exact hsome TYPE_A name id (fun r => rfl) req s1 hrn
    | some cfg =>
      dsimp only
      by_cases hc1 : flags &&& DNS_QUERY_NO_SEARCH = 0 ∧ cfg.domains.length ≠ 0
      · rw [if_pos hc1]
        by_cases hc2 : (string_num_dots name : Int) ≥ cfg.ndots
        · rw [if_pos hc2]
          cases hrn : request_new s TYPE_A name cb with
          | mk o s1 =>
            cases o with
            | none => exact hnone TYPE_A name none s1 hrn
            | some req =>
              exact hsome TYPE_A name
                (fun r => { r with searchIndex := -1, searchOrigname := some name,
                                   searchCfgRef := some cfg, searchFlags := flags })
                (fun r => rfl) req s1 hrn
        · rw [if_neg hc2]
          cases hmk : search_make_new cfg 0 name with
          | none => exact hle
          | some newName =>
            dsimp only
            cases hrn : request_new s TYPE_A newName cb with
            | mk o s1 =>
              cases o with
              | none => exact hnone TYPE_A newName none s1 hrn
              | some req =>
                exact hsome TYPE_A newName
                  (fun r => { r with searchIndex := 0, searchOrigname := some name,
                                     searchCfgRef := some cfg, searchFlags := flags })
                  (fun r => rfl) req s1 hrn
      · rw [if_neg hc1]
        cases hrn : request_new s TYPE_A name cb with
        | mk o s1 =>
          cases o with
          | none => exact hnone TYPE_A name none s1 hrn
          | some req => exact hsome TYPE_A name id (fun r => rfl) req s1 hrn

theorem probe_inflight_bound (s : DnsState) (i : Nat) :
    (nameserver_send_probe s i).inflight ≤ s.inflight + 1 := by
  unfold nameserver_send_probe
  cases hrn : request_new s TYPE_A "www.google.com" PROBE_CB with
  | mk o s1 =>
    have h2 : (request_new s TYPE_A "www.google.com" PROBE_CB).2 = s1 := by
      rw [hrn]
    obtain ⟨⟨hinf, -⟩, -⟩ := request_new_state s TYPE_A "www.google.com" PROBE_CB
    rw [h2] at hinf
    cases o with
    | none =>
      dsimp only
      omega
    | some req =>
      dsimp only
      obtain ⟨e, he⟩ := transaction_id_pick_state s1
      obtain ⟨hsubinf, -⟩ := request_submit_state
        { request_trans_id_set req (transaction_id_pick s1).1 with ns := some i }
        (transaction_id_pick s1).2
      rw [hsubinf, he]
      simp only [Option.isSome_some, if_pos]
      omega

/-- Claim C4 counterexample: with the inflight queue full at the default
cap of 64 and one healthy nameserver, sending a nameserver probe pushes
the inflight counter to 65 — the probe is force-inserted into the inflight
queue with no cap check, so "probe submission preserves inflight ≤ cap" is
false. -/
theorem c4_probe_exceeds_cap_cex :
    (nameserver_send_probe fullInflightState 0).inflight = 65 ∧
    (nameserver_send_probe fullInflightState 0).cap = 64 ∧
    ¬ ((nameserver_send_probe fullInflightState 0).inflight
        ≤ (nameserver_send_probe fullInflightState 0).cap) := by
  refine ⟨by decide, by decide, by decide⟩

/-- Claim C4 as amended: promotion from the waiting queue and direct
submission by resolve preserve `inflight ≤ cap`, but nameserver probe
submission is exempt — it force-inserts the probe regardless of the cap,
adding exactly the probe to the inflight count (so inflight can reach
cap + 1, one per outstanding probe). -/
theorem c4_inflight_cap_amended :
    (∀ s : DnsState, s.inflight ≤ s.cap →
       (evdns_requests_pump_waiting_queue s).inflight
         ≤ (evdns_requests_pump_waiting_queue s).cap) ∧
    (∀ (s : DnsState) (name : String) (flags cb : Nat), s.inflight ≤ s.cap →
       (evdns_resolve_ipv4 s name flags cb).2.inflight
         ≤ (evdns_resolve_ipv4 s name flags cb).2.cap) ∧
    (∀ (s : DnsState) (i : Nat),
       (nameserver_send_probe s i).inflight ≤ s.inflight + 1) := by
  refine ⟨?_, resolve_preserves_cap, probe_inflight_bound⟩
  intro s hle
  unfold evdns_requests_pump_waiting_queue
  rw [pumpLoop_cap]
  exact pumpLoop_inflight_le _ _ hle

theorem c4_inflight_cap_witness :
    (evdns_resolve_ipv4 servfailScenario "example.com" 0 9).2.inflight
      ≤ (evdns_resolve_ipv4 servfailScenario "example.com" 0 9).2.cap :=
  c4_inflight_cap_amended.2.1 servfailScenario "example.com" 0 9 (by decide)

/-! ## nameserver_failed lemmas -/

theorem updateNs_updateNs (srv : List Nameserver) (i : Nat)
    (f g : Nameserver → Nameserver) (hf : ∀ n, (f n).nsid = n.nsid) :
    updateNs (updateNs srv i f) i g = updateNs srv i (fun n => g (f n)) := by
  unfold updateNs
  rw [List.map_map]
  apply List.map_congr_left
  intro n _
  by_cases hn : n.nsid = i
  · simp [hn, hf]
  · simp [hn]

theorem rehome_go_find (i : Nat) :
    ∀ (l : List Request) (srv : List Nameserver) (good : Int) (rid : Nat)
      (r : Request), findReqL l rid = some r →
      ¬ (r.txCount = 0 ∧ r.ns = some i) →
      findReqL (rehome_go i l srv good).1 rid = some r := by
  intro l
  induction l with
  | nil => intro srv good rid r hf; simp [findReqL] at hf
  | cons h t ih =>
    intro srv good rid r hf hcond
    by_cases hh : h.reqId = rid
    · rw [findReqL, List.find?_cons_of_pos _ (by simpa using hh)] at hf
      cases hf
      have hcnd : ¬ (h.txCount = 0 ∧ h.ns = some i) := hcond
      simp only [rehome_go, if_neg hcnd]
      rw [findReqL, List.find?_cons_of_pos _ (by simpa using hh)]
    · rw [findReqL, List.find?_cons_of_neg _ (by simpa using hh)] at hf
      simp only [rehome_go]
      split
      · rw [findReqL, List.find?_cons_of_neg _ (by simpa using hh)]
        exact ih _ _ rid r hf hcond
      · rw [findReqL, List.find?_cons_of_neg _ (by simpa using hh)]
        exact ih _ _ rid r hf hcond

theorem nameserver_failed_state (s : DnsState) (o : Option Nat) :
    ∃ g srv reqs, nameserver_failed s o
      = { s with good := g, servers := srv, reqHead := reqs } := by
  unfold nameserver_failed
  cases o with
  | none => exact ⟨s.good, s.servers, s.reqHead, rfl⟩
  | some i =>
    try dsimp only
    cases hfs : findNs s.servers i with
    | none => exact ⟨s.good, s.servers, s.reqHead, rfl⟩
    | some ns =>
      try dsimp only
      split
      · exact ⟨s.good, s.servers, s.reqHead, rfl⟩
      · try dsimp only
        split
        · exact ⟨_, _, s.reqHead, rfl⟩
        · exact ⟨_, _, _, rfl⟩

theorem nameserver_failed_find (s : DnsState) (i : Nat) (rid : Nat) (r : Request)
    (hf : findReqL s.reqHead rid = some r)
    (hcond : ¬ (r.txCount = 0 ∧ r.ns = some i)) :
    findReqL (nameserver_failed s (some i)).reqHead rid = some r := by
  unfold nameserver_failed
  try dsimp only
  cases hfs : findNs s.servers i with
  | none => exact hf
  | some ns =>
    try dsimp only
    split
    · exact hf
    · try dsimp only
      split
      · exact hf
      · exact rehome_go_find i _ _ _ rid r hf hcond

theorem nameserver_failed_target (s : DnsState) (i : Nat) (ns : Nameserver)
    (hnd : (s.servers.map Nameserver.nsid).Nodup)
    (hfs : findNs s.servers i = some ns) :
    ∀ n ∈ (nameserver_failed s (some i)).servers, n.nsid = i →
      n.state = false ∧ n.timedout = ns.timedout ∧ n.choaked = ns.choaked := by
  have huniq := find_key_unique Nameserver.nsid s.servers i ns hnd hfs
  have hupd : ∀ n ∈ updateNs s.servers i
      (fun m => { m with state := false, failedTimes := 1 }), n.nsid = i →
      n.state = false ∧ n.timedout = ns.timedout ∧ n.choaked = ns.choaked := by
    intro n hn hni
    obtain ⟨m, hm, hval⟩ := mem_updateNs hn
    by_cases hmi : m.nsid = i
    · have hmns : m = ns := huniq m hm hmi
      subst hmns
      rw [if_pos hmi] at hval
      subst hval
      exact ⟨rfl, rfl, rfl⟩
    · rw [if_neg hmi] at hval
      subst hval
      exact absurd hni hmi
  unfold nameserver_failed
  try dsimp only
  rw [hfs]
  try dsimp only
  split
  · rename_i hdown
    intro n hn hni
    have hnns : n = ns := huniq n hn hni
    subst hnns
    exact ⟨hdown, rfl, rfl⟩
  · try dsimp only
    split
    · intro n hn hni
      exact hupd n hn hni
    · intro n hn hni
      try dsimp only at hn
      have hmem := (rehome_go_servers_perm i _ _ _).mem_iff.mp hn
      exact hupd n hmem hni

theorem nameserver_failed_servers_ids (s : DnsState) (i : Nat) :
    List.Perm ((nameserver_failed s (some i)).servers.map Nameserver.nsid)
      (s.servers.map Nameserver.nsid) := by
  unfold nameserver_failed
  try dsimp only
  cases hfs : findNs s.servers i with
  | none => exact List.Perm.refl _
  | some ns =>
    try dsimp only
    split
    · exact List.Perm.refl _
    · try dsimp only
      split
      · try dsimp only
        rw [updateNs_ids s.servers i
          (fun n => { n with state := false, failedTimes := 1 }) (fun n => rfl)]
      · try dsimp only
        refine ((rehome_go_servers_perm i _ _ _).map Nameserver.nsid).trans ?_
        rw [updateNs_ids s.servers i
          (fun n => { n with state := false, failedTimes := 1 }) (fun n => rfl)]

theorem evdns_request_transmit_sends (r : Request) (s : DnsState) (i : Nat)
    (y : Nameserver) (hns : r.ns = some i) (hfy : findNs s.servers i = some y)
    (hc : y.choaked = false) :
    (evdns_request_transmit r s).2.transmits = s.transmits ++ [r.reqId] := by
  simp [evdns_request_transmit, hns, hfy, hc]

/-! ## C8: timeout semantics -/

/-- Claim C8: when a request's timeout fires, the assigned server's
consecutive-timeout counter is incremented — reset, with the server marked
failed, once it exceeds `global_max_nameserver_timeout` — and then the
request either fails with exactly one TIMEOUT callback (when `tx_count`
has reached `max_retransmits`) or is retransmitted. -/
theorem c8_timeout_semantics (s : DnsState) (req : Request) (i : Nat)
    (ns : Nameserver)
    (hfind : findReqL s.reqHead req.reqId = some req)
    (hns : req.ns = some i)
    (hfns : findNs s.servers i = some ns)
    (htx : 1 ≤ req.txCount)
    (hndNs : (s.servers.map Nameserver.nsid).Nodup)
    (hwid : req.reqId ∉ s.reqWaitingHead.map Request.reqId) :
    c8_conclusion s req i ns := by
  have hfA : findNs (updateNs s.servers i (fun n => { n with timedout := n.timedout + 1 })) i = some { ns with timedout := ns.timedout + 1 } := by
    rw [findNs_updateNs s.servers i (fun n => { n with timedout := n.timedout + 1 }) (fun n => rfl), hfns]
    rfl
  unfold c8_conclusion
  simp only [evdns_request_timeout_callback, hfind, hns]
  try dsimp only
  rw [hfA]
  try dsimp only
  by_cases hex : ((ns.timedout + 1 : Nat) : Int) > s.maxNsTimeout
  · -- counter exceeded: reset and fail the server
    rw [if_pos hex]
    have hcomp : updateNs (updateNs s.servers i (fun n => { n with timedout := n.timedout + 1 })) i (fun n => { n with timedout := 0 }) = updateNs s.servers i (fun n => { n with timedout := 0 }) := by
      rw [updateNs_updateNs s.servers i (fun n => { n with timedout := n.timedout + 1 }) (fun n => { n with timedout := 0 }) (fun n => rfl)]
    rw [hcomp]
    have hfsB : findNs ({ s with servers := (updateNs s.servers i (fun n => { n with timedout := 0 })) } : DnsState).servers i = some { ns with timedout := 0 } := by
      try dsimp only
      rw [findNs_updateNs s.servers i (fun n => { n with timedout := 0 }) (fun n => rfl), hfns]
      rfl
    have hndB : (({ s with servers := (updateNs s.servers i (fun n => { n with timedout := 0 })) } : DnsState).servers.map Nameserver.nsid).Nodup := by
      try dsimp only
      rw [updateNs_ids s.servers i (fun n => { n with timedout := 0 }) (fun n => rfl)]
      exact hndNs
    have htarget := nameserver_failed_target { s with servers := (updateNs s.servers i (fun n => { n with timedout := 0 })) } i { ns with timedout := 0 } hndB hfsB
    have hfindB := nameserver_failed_find { s with servers := (updateNs s.servers i (fun n => { n with timedout := 0 })) } i req.reqId req hfind (by intro hc; omega)
    have hids := nameserver_failed_servers_ids { s with servers := (updateNs s.servers i (fun n => { n with timedout := 0 })) } i
    obtain ⟨g, srv, reqs, hsh⟩ := nameserver_failed_state { s with servers := (updateNs s.servers i (fun n => { n with timedout := 0 })) } (some i)
    rw [hsh] at htarget hfindB hids ⊢
    dsimp only at htarget hfindB hids ⊢
    rw [hfindB]
    simp only [Option.getD_some]
    refine ⟨?_, ?_, ?_, ?_⟩
    · -- counter value on every copy of server i
      intro n hn hni
      rw [if_pos (by omega : s.maxNsTimeout < ((ns.timedout : Int) + 1))]
      by_cases htxm : (req.txCount : Int) ≥ s.maxRetransmits
      · rw [if_pos htxm] at hn
        have hperm := request_finished_servers_perm { s with good := g, servers := srv, reqHead := reqs, callbacks := s.callbacks ++ [(req.cbId, DNS_ERR_TIMEOUT)] } req.reqId
        have hn2 := hperm.mem_iff.mp hn
        exact (htarget n hn2 hni).2.1
      · rw [if_neg htxm] at hn
        obtain ⟨t, ht⟩ := evdns_request_transmit_state req { s with good := g, servers := srv, reqHead := reqs }
        rw [ht] at hn
        exact (htarget n hn hni).2.1
    · -- the server is marked failed
      intro _ n hn hni
      by_cases htxm : (req.txCount : Int) ≥ s.maxRetransmits
      · rw [if_pos htxm] at hn
        have hperm := request_finished_servers_perm { s with good := g, servers := srv, reqHead := reqs, callbacks := s.callbacks ++ [(req.cbId, DNS_ERR_TIMEOUT)] } req.reqId
        have hn2 := hperm.mem_iff.mp hn
        exact (htarget n hn2 hni).1
      · rw [if_neg htxm] at hn
        obtain ⟨t, ht⟩ := evdns_request_transmit_state req { s with good := g, servers := srv, reqHead := reqs }
        rw [ht] at hn
        exact (htarget n hn hni).1
    · -- retransmit budget exhausted: one TIMEOUT callback, request gone
      intro htxm
      rw [if_pos (by omega : (req.txCount : Int) ≥ s.maxRetransmits)]
      constructor
      · rw [request_finished_callbacks]
        rfl
      · exact request_finished_ids _ _ hwid
    · -- budget remains: no callback; unchoked server means retransmitted
      intro htxm
      rw [if_neg (by omega : ¬ ((req.txCount : Int) ≥ s.maxRetransmits))]
      obtain ⟨t, ht⟩ := evdns_request_transmit_state req { s with good := g, servers := srv, reqHead := reqs }
      constructor
      · rw [ht]
      · intro hch
        have hiMem : i ∈ srv.map Nameserver.nsid := by
          refine hids.mem_iff.mpr ?_
          try dsimp only
          rw [updateNs_ids s.servers i (fun n => { n with timedout := 0 }) (fun n => rfl)]
          have hmem : ns ∈ s.servers := List.mem_of_find?_eq_some hfns
          have hnsi : ns.nsid = i := by simpa using List.find?_some hfns
          exact hnsi ▸ List.mem_map_of_mem Nameserver.nsid hmem
        obtain ⟨y, hy, hyid⟩ := List.mem_map.mp hiMem
        obtain ⟨y2, hy2f, hy2m, hy2id⟩ := find_key_exists Nameserver.nsid srv i y hy hyid
        have hych := (htarget y2 hy2m hy2id).2.2
        rw [evdns_request_transmit_sends req { s with good := g, servers := srv, reqHead := reqs } i y2 hns hy2f (by rw [hych]; exact hch)]
  · -- counter not exceeded
    rw [if_neg hex]
    rw [hfind]
    simp only [Option.getD_some]
    have htargetA : ∀ n ∈ updateNs s.servers i (fun m => { m with timedout := m.timedout + 1 }), n.nsid = i → n.state = ns.state ∧ n.timedout = ns.timedout + 1 ∧ n.choaked = ns.choaked := by
      intro n hn hni
      obtain ⟨m, hm, hval⟩ := mem_updateNs hn
      by_cases hmi : m.nsid = i
      · have hmns : m = ns := find_key_unique Nameserver.nsid s.servers i ns hndNs hfns m hm hmi
        subst hmns
        rw [if_pos hmi] at hval
        subst hval
        exact ⟨rfl, rfl, rfl⟩
      · rw [if_neg hmi] at hval
        subst hval
        exact absurd hni hmi
    refine ⟨?_, ?_, ?_, ?_⟩
    · intro n hn hni
      rw [if_neg (by omega : ¬ (s.maxNsTimeout < ((ns.timedout : Int) + 1)))]
      by_cases htxm : (req.txCount : Int) ≥ s.maxRetransmits
      · rw [if_pos htxm] at hn
        have hperm := request_finished_servers_perm { s with servers := (updateNs s.servers i (fun m => { m with timedout := m.timedout + 1 })), callbacks := s.callbacks ++ [(req.cbId, DNS_ERR_TIMEOUT)] } req.reqId
        have hn2 := hperm.mem_iff.mp hn
        exact (htargetA n hn2 hni).2.1
      · rw [if_neg htxm] at hn
        obtain ⟨t, ht⟩ := evdns_request_transmit_state req { s with servers := (updateNs s.servers i (fun m => { m with timedout := m.timedout + 1 })) }
        rw [ht] at hn
        exact (htargetA n hn hni).2.1
    · intro hex2
      exact absurd (by omega : ((ns.timedout + 1 : Nat) : Int) > s.maxNsTimeout) hex
    · intro htxm
      rw [if_pos (by omega : (req.txCount : Int) ≥ s.maxRetransmits)]
      constructor
      · rw [request_finished_callbacks]
        rfl
      · exact request_finished_ids _ _ hwid
    · intro htxm
      rw [if_neg (by omega : ¬ ((req.txCount : Int) ≥ s.maxRetransmits))]
      obtain ⟨t, ht⟩ := evdns_request_transmit_state req { s with servers := (updateNs s.servers i (fun m => { m with timedout := m.timedout + 1 })) }
      constructor
      · rw [ht]
      · intro hch
        rw [evdns_request_transmit_sends req { s with servers := (updateNs s.servers i (fun m => { m with timedout := m.timedout + 1 })) } i { ns with timedout := ns.timedout + 1 } hns hfA (by dsimp only; exact hch)]

theorem c8_timeout_semantics_witness : c8_conclusion timeoutScenario
    ({ mkInflightReq 0 10 0 with txCount := 3 }) 0 (mkUpNs 0 0x7f000001) :=
  c8_timeout_semantics timeoutScenario
    ({ mkInflightReq 0 10 0 with txCount := 3 }) 0 (mkUpNs 0 0x7f000001)
    (by decide) (by decide) (by decide) (by decide) (by decide) (by decide)

/-! ## C7: reply error handling and the reissue budget -/

theorem mem_updateReq {l : List Request} {i : Nat}
    {f : Request → Request} {x : Request} (h : x ∈ updateReq l i f) :
    ∃ r ∈ l, x = if r.reqId = i then f r else r := by
  obtain ⟨r, hr, hx⟩ := List.mem_map.mp h
  exact ⟨r, hr, hx.symm⟩

theorem updateReq_ids (l : List Request) (i : Nat) (f : Request → Request)
    (hpres : ∀ r, r.reqId = i → (f r).reqId = r.reqId) :
    (updateReq l i f).map Request.reqId = l.map Request.reqId := by
  unfold updateReq
  rw [List.map_map]
  apply List.map_congr_left
  intro r _
  by_cases hr : r.reqId = i
  · simp [hr, hpres r hr]
  · simp [hr]

theorem findReqL_mem_ids {l : List Request} {i : Nat} {r : Request}
    (h : findReqL l i = some r) : i ∈ l.map Request.reqId := by
  have hmem : r ∈ l := List.mem_of_find?_eq_some h
  have hid : r.reqId = i := by simpa using List.find?_some h
  exact hid ▸ List.mem_map_of_mem Request.reqId hmem

theorem updateReq_mem_ids {l : List Request} {i : Nat} {f : Request → Request}
    (hf : ∀ r, r.reqId = i → (f r).reqId = i)
    (hmem : i ∈ l.map Request.reqId) : i ∈ (updateReq l i f).map Request.reqId := by
  obtain ⟨r, hr, hrid⟩ := List.mem_map.mp hmem
  have hfr : (f r).reqId = i := hf r hrid
  have : f r ∈ updateReq l i f := by
    unfold updateReq
    have := List.mem_map_of_mem (fun q => if q.reqId = i then f q else q) hr
    simpa [hrid] using this
  exact List.mem_map.mpr ⟨f r, this, hfr⟩

/-- Claim C7 counterexample: a ServFail reply for a request whose reissue
budget is exhausted (`reissue_count = global_max_reissues`) leaves the
answering nameserver up and surfaces SERVER_FAILED to the user, instead of
marking the server failed as the spec asserts unconditionally. -/
theorem c7_servfail_budget_cex :
    (reply_handle servfailScenario exhaustedReissueReq 0x8002 0
       none).servers.map Nameserver.state = [true] ∧
    (reply_handle servfailScenario exhaustedReissueReq 0x8002 0
       none).callbacks = [(7, DNS_ERR_SERVERFAILED)] := by
  decide

/-- Claim C7 (amended): on a ServFail/NotImpl/Refused reply the server is
marked failed and a reissue is attempted only while
`reissue_count < global_max_reissues`; a successful reissue (the ring pick
found a different server) retries silently with the reissue counted,
whereas a same-server pick surfaces the error; once the budget is spent the
server stays up and the error is surfaced. -/
theorem c7_servfail_budget_semantics (s : DnsState) (req : Request) (i : Nat)
    (ns : Nameserver) (flags : Nat)
    (hfind : findReqL s.reqHead req.reqId = some req)
    (hns : req.ns = some i)
    (hfns : findNs s.servers i = some ns)
    (hup : ns.state = true)
    (htx : 1 ≤ req.txCount)
    (hnos : req.searchCfgRef = none)
    (herr : error_code_of_flags flags = DNS_ERR_SERVERFAILED ∨
            error_code_of_flags flags = DNS_ERR_NOTIMPL ∨
            error_code_of_flags flags = DNS_ERR_REFUSED)
    (hndNs : (s.servers.map Nameserver.nsid).Nodup)
    (hwid : req.reqId ∉ s.reqWaitingHead.map Request.reqId) :
    c7_conclusion s req i flags := by
  have hre : reply_is_error flags none = true := by
    simp [reply_is_error]
  unfold c7_conclusion
  simp only [reply_handle, hre, eq_self_iff_true, if_true, hns]
  rw [if_pos herr]
  constructor
  · -- reissue budget available
    intro hb
    rw [if_pos hb]
    have hfindB : findReqL (nameserver_failed s (some i)).reqHead req.reqId
        = some req :=
      nameserver_failed_find s i req.reqId req hfind (by intro hc; omega)
    have htarget := nameserver_failed_target s i ns hndNs hfns
    obtain ⟨g, srv, reqs, hsh⟩ := nameserver_failed_state s (some i)
    have heta : ((nameserver_pick srv g).1).map (fun n => n.nsid)
        = c7_pick_after_fail s i := by
      unfold c7_pick_after_fail
      rw [hsh]
    rw [hsh] at hfindB htarget ⊢
    dsimp only at hfindB htarget ⊢
    rw [hfindB]
    simp only [Option.getD_some, request_reissue, hns]
    try dsimp only
    rw [heta]
    by_cases hpk : c7_pick_after_fail s i = some i
    · -- the pick came back with the same server: error is surfaced
      rw [if_pos hpk]
      try dsimp only
      rw [if_neg (by omega : ¬ (1 : Nat) = 0)]
      try dsimp only
      simp only [Bool.false_eq_true, if_false]
      rw [hfindB]
      simp only [Option.getD_some]
      rw [if_neg (by simp [hnos] : ¬ (req.searchCfgRef.isSome = true ∧
        req.reqType ≠ TYPE_PTR))]
      refine ⟨?_, ?_, ?_⟩
      · intro n hn hni
        have hn2 := (request_finished_servers_perm _ _).mem_iff.mp hn
        have hn3 := (nameserver_pick_perm srv g).mem_iff.mp hn2
        exact (htarget n hn3 hni).1
      · intro hne
        exact absurd hpk hne
      · intro _
        constructor
        · rw [request_finished_callbacks]
          rfl
        · exact request_finished_ids _ _ hwid
    · -- reissue succeeds: new server recorded, no user callback
      rw [if_neg hpk]
      try dsimp only
      simp only [reduceIte]
      try dsimp only
      refine ⟨?_, ?_, ?_⟩
      · intro n hn hni
        have hn3 := (nameserver_pick_perm srv g).mem_iff.mp hn
        exact (htarget n hn3 hni).1
      · intro _
        refine ⟨trivial, ?_, ?_⟩
        · exact updateReq_mem_ids (fun r _ => rfl) (findReqL_mem_ids hfindB)
        · intro r hr hrid
          obtain ⟨m, hm, hval⟩ := mem_updateReq hr
          by_cases hmi : m.reqId = req.reqId
          · rw [if_pos hmi] at hval
            subst hval
            exact ⟨rfl, rfl, rfl, rfl⟩
          · rw [if_neg hmi] at hval
            subst hval
            exact absurd hrid hmi
      · intro hpe
        exact absurd hpe hpk
  · -- reissue budget exhausted: server untouched, error surfaced
    intro hb
    rw [if_neg (by omega : ¬ ((req.reissueCount : Int) < s.maxReissues))]
    try dsimp only
    simp only [Bool.false_eq_true, if_false]
    rw [hfind]
    simp only [Option.getD_some]
    rw [if_neg (by simp [hnos] : ¬ (req.searchCfgRef.isSome = true ∧
      req.reqType ≠ TYPE_PTR))]
    refine ⟨?_, ?_, ?_⟩
    · intro n hn hni
      have hn2 := (request_finished_servers_perm _ _).mem_iff.mp hn
      have hnns : n = ns := find_key_unique Nameserver.nsid s.servers i ns
        hndNs hfns n hn2 hni
      subst hnns
      exact hup
    · rw [request_finished_callbacks]
      rfl
    · exact request_finished_ids _ _ hwid

theorem c7_servfail_budget_witness :
    c7_conclusion servfailScenario exhaustedReissueReq 0 0x8002 :=
  c7_servfail_budget_semantics servfailScenario exhaustedReissueReq 0
    (mkUpNs 0 0x7f000001) 0x8002 (by decide) (by decide) (by decide)
    (by decide) (by decide) (by decide) (by decide) (by decide) (by decide)
